import Mathlib

/-!
Verification of the SonicWall MCP Server log-normalization and retrieval layer.

This file shallowly embeds the TypeScript sources:
  * `src/sonicwall/log-parser-enhanced.ts` (EnhancedSonicWallLogParser)
  * `src/sonicwall/log-parser.ts`          (SonicWallLogParser)
  * `src/utils/cache.ts`                   (MemoryCache)
  * the enhanced API client (EnhancedSonicWallApiClient)

JavaScript runtime built-ins (Date parsing, JSON.parse/stringify, Math.random
ids, the current clock) are modelled as an explicit environment record, so
theorems quantify over every behaviour these built-ins may have.  Regular
expressions are embedded via a small backtracking matcher whose alternative /
greedy / lazy preference order follows the ECMAScript semantics, and each
regex literal of the source is transcribed into the matcher's syntax.
-/

set_option maxHeartbeats 1000000

/-! ## JavaScript string primitives -/

/-- ASCII lower-casing of a character, as `String.prototype.toLowerCase`
behaves on the ASCII inputs that occur in the embedded sources. -/
def lowCh (c : Char) : Char := c.toLower

/-- Lower-case a character list. -/
def lowL (l : List Char) : List Char := l.map lowCh

/-- JavaScript whitespace test (ASCII portion), used by `String.prototype.trim`. -/
def jsWs (c : Char) : Bool :=
  c = ' ' || c = '\t' || c = '\n' || c = '\r' || c = Char.ofNat 12 || c = Char.ofNat 11

/-- Drop trailing characters satisfying `p`. -/
def dropTail (p : Char → Bool) (l : List Char) : List Char :=
  (l.reverse.dropWhile p).reverse

/-- `String.prototype.trim` on character lists. -/
def jsTrimL (l : List Char) : List Char :=
  dropTail jsWs (l.dropWhile jsWs)

/-- `String.prototype.trim`. -/
def jsTrim (s : String) : String := String.mk (jsTrimL s.data)

/-- Does `needle` occur at the head of `hay`? (character-exact) -/
def leadEq : List Char → List Char → Bool
  | [], _ => true
  | _ :: _, [] => false
  | n :: ns, h :: hs => n = h && leadEq ns hs

/-- Substring containment on character lists (`String.prototype.includes`). -/
def containsL (hay needle : List Char) : Bool :=
  if leadEq needle hay then true
  else
    match hay with
    | [] => false
    | _ :: t => containsL t needle

/-- Case-insensitive substring containment on strings. -/
def containsCI (hay needle : String) : Bool :=
  containsL (lowL hay.data) (lowL needle.data)

/-- Substring containment, `needle` occurs somewhere in `hay`. -/
def subL (needle hay : List Char) : Prop :=
  ∃ pre post, hay = pre ++ needle ++ post

/-- `parseInt` on a digit string (the shape every numeric capture group has);
`none` models `NaN`. -/
def digitsToNat : List Char → Nat → Option Nat
  | [], acc => some acc
  | c :: cs, acc => if c.isDigit then digitsToNat cs (acc * 10 + (c.toNat - 48)) else some acc

/-- JavaScript `parseInt(s)` restricted to the call sites of the sources:
leading whitespace, then decimal digits; `none` is `NaN`. -/
def jsParseInt (s : String) : Option Int :=
  let t := s.data.dropWhile jsWs
  match t with
  | [] => none
  | c :: _ =>
    if c.isDigit then (digitsToNat (t.takeWhile Char.isDigit) 0).map Int.ofNat
    else none

/-! ## JavaScript values (for structured JSON payloads) -/

/-- Dynamic JavaScript values as they appear in parsed JSON payloads and
upstream response bodies. -/
inductive J where
  | und
  | nul
  | b (v : Bool)
  | n (v : Int)
  | s (v : String)
  | arr (xs : List J)
  | obj (fields : List (String × J))

/-- Property access `v[k]`: first field of an object, `undefined` otherwise. -/
def jGet (v : J) (k : String) : J :=
  match v with
  | .obj fs =>
    match fs.find? (fun p => p.1 == k) with
    | some p => p.2
    | none => .und
  | _ => .und

/-- JavaScript truthiness. -/
def jTruthy : J → Bool
  | .und => false
  | .nul => false
  | .b v => v
  | .n v => v != 0
  | .s v => v != ""
  | .arr _ => true
  | .obj _ => true

/-- JavaScript `a || b`. -/
def jOr (a b : J) : J := if jTruthy a then a else b

/-- JavaScript `String(v)` (arrays are flattened coarsely; the sources never
reach `String()` with an array in the claims' paths). -/
def jToString : J → String
  | .und => "undefined"
  | .nul => "null"
  | .b true => "true"
  | .b false => "false"
  | .n v => toString v
  | .s v => v
  | .arr _ => ""
  | .obj _ => "[object Object]"

/-- Numeric coercion used where the source multiplies/adds a JSON field;
`none` models `NaN`. -/
def jToNum : J → Option Int
  | .n v => some v
  | .b true => some 1
  | .b false => some 0
  | .nul => some 0
  | .s v => jsParseInt v
  | _ => none

/-! ## Backtracking regex matcher

The SonicWall parsers are chains of JavaScript regex literals.  We transcribe
each literal into the `RE` syntax below and run it with a continuation-passing
backtracking matcher whose preference order (greedy repetition tries longest
first, lazy `.*?` tries shortest first, alternatives left to right, `?`
prefers presence) coincides with the ECMAScript backtracking order on the
constructs used. -/

/-- Character classes occurring in the source regexes.  `notBackslashS` is the
class `[^\\s]` of the source (which, written inside a regex literal, excludes
the backslash and the letter `s`, not whitespace). -/
inductive CCls where
  | digit
  | word
  | wsp
  | nonWsp
  | anyc
  | hex
  | notColon
  | notQuote
  | notBackslashS
  | range (lo hi : Char)
  | oneOf (cs : List Char)

/-- JavaScript `\w`. -/
def isWordCh (c : Char) : Bool := c.isAlpha || c.isDigit || c = '_'

/-- Class membership; `ci` is the regex's `/i` flag. -/
def CCls.test (ci : Bool) : CCls → Char → Bool
  | .digit, c => c.isDigit
  | .word, c => isWordCh c
  | .wsp, c => jsWs c
  | .nonWsp, c => !(jsWs c)
  | .anyc, c => !(c = '\n' || c = '\r')
  | .hex, c => c.isDigit || ('a' ≤ c && c ≤ 'f') || ('A' ≤ c && c ≤ 'F')
  | .notColon, c => c != ':'
  | .notQuote, c => c != Char.ofNat 34
  | .notBackslashS, c => !(c = Char.ofNat 92 || c = 's')
  | .range lo hi, c => lo ≤ c && c ≤ hi
  | .oneOf cs, c => if ci then cs.contains c || cs.contains (lowCh c) else cs.contains c

/-- Regex abstract syntax (the fragment used by the sources). -/
inductive RE where
  | eps
  | lit (s : String)
  | cls (c : CCls)
  | cnt (c : CCls) (n : Nat)
  | between (c : CCls) (lo hi : Nat)
  | plus (c : CCls)
  | star (c : CCls)
  | rep (r : RE) (n : Nat)
  | opt (r : RE)
  | gap
  | grp (idx : Nat) (r : RE)
  | alt (a b : RE)
  | cat (a b : RE)

/-- Captured groups, most recently closed first. -/
abbrev Caps := List (Nat × String)

/-- Group lookup (`match[i]`); `none` models an unset (`undefined`) group. -/
def capsGet (caps : Caps) (i : Nat) : Option String :=
  (caps.find? (fun p => p.1 == i)).map Prod.snd

/-- Character comparison under the optional `/i` flag. -/
def chEq (ci : Bool) (a b : Char) : Bool :=
  if ci then lowCh a = lowCh b else a = b

/-- Consume a literal from the head of the input; returns the rest. -/
def litEat (ci : Bool) : List Char → List Char → Option (List Char)
  | [], rest => some rest
  | _ :: _, [] => none
  | l :: ls, c :: cs => if chEq ci l c then litEat ci ls cs else none

/-- Length of the maximal class run at the head of the input. -/
def clsRun (ci : Bool) (c : CCls) : List Char → Nat
  | [] => 0
  | x :: xs => if c.test ci x then clsRun ci c xs + 1 else 0

/-- Try consumption counts from `k` down to `lo` (greedy preference). -/
def greedyTry {α : Type} (cont : Nat → Option α) (lo : Nat) : Nat → Option α
  | 0 => if 0 < lo then none else cont 0
  | k + 1 =>
    if k + 1 < lo then none
    else
      match cont (k + 1) with
      | some r => some r
      | none => greedyTry cont lo k

/-- Lazy `.*?`: try the continuation at every suffix, shortest gap first. -/
def gapTry {α : Type} (cont : List Char → Option α) : List Char → Option α
  | [] => cont []
  | c :: t =>
    match cont (c :: t) with
    | some r => some r
    | none => gapTry cont t

/-- Iterate a matcher exactly `n` times. -/
def mrep {α : Type}
    (mr : List Char → Caps → (List Char → Caps → Option α) → Option α) :
    Nat → List Char → Caps → (List Char → Caps → Option α) → Option α
  | 0, cs, caps, k => k cs caps
  | n + 1, cs, caps, k => mr cs caps (fun cs' caps' => mrep mr n cs' caps' k)

/-- The backtracking matcher.  `mtry ci re cs caps k` attempts to match `re`
against a prefix of `cs`, extending `caps`, and calls the continuation `k`
with the remaining input; backtracking explores alternatives in ECMAScript
preference order and stops at the first overall success. -/
def mtry {α : Type} (ci : Bool) : RE → List Char → Caps → (List Char → Caps → Option α) → Option α
  | .eps, cs, caps, k => k cs caps
  | .lit s, cs, caps, k =>
    match litEat ci s.data cs with
    | some rest => k rest caps
    | none => none
  | .cls c, cs, caps, k =>
    match cs with
    | [] => none
    | x :: rest => if c.test ci x then k rest caps else none
  | .cnt c n, cs, caps, k =>
    if n ≤ clsRun ci c cs then k (cs.drop n) caps else none
  | .between c lo hi, cs, caps, k =>
    greedyTry (fun j => k (cs.drop j) caps) lo (min hi (clsRun ci c cs))
  | .plus c, cs, caps, k =>
    greedyTry (fun j => k (cs.drop j) caps) 1 (clsRun ci c cs)
  | .star c, cs, caps, k =>
    greedyTry (fun j => k (cs.drop j) caps) 0 (clsRun ci c cs)
  | .rep r n, cs, caps, k => mrep (mtry ci r) n cs caps k
  | .opt r, cs, caps, k =>
    match mtry ci r cs caps k with
    | some res => some res
    | none => k cs caps
  | .gap, cs, caps, k => gapTry (fun cs' => k cs' caps) cs
  | .grp i r, cs, caps, k =>
    mtry ci r cs caps
      (fun rest caps' => k rest ((i, String.mk (cs.take (cs.length - rest.length))) :: caps'))
  | .alt a b, cs, caps, k =>
    match mtry ci a cs caps k with
    | some r => some r
    | none => mtry ci b cs caps k
  | .cat a b, cs, caps, k =>
    mtry ci a cs caps (fun cs' caps' => mtry ci b cs' caps' k)

/-- Match anchored at the current position, returning captures and the length
of the consumed prefix. -/
def reMatchAt (ci : Bool) (re : RE) (cs : List Char) : Option (Caps × Nat) :=
  mtry ci re cs [] (fun rest caps => some (caps, cs.length - rest.length))

/-- `String.prototype.match` for a `^`-anchored regex. -/
def reMatchA (ci : Bool) (re : RE) (s : String) : Option Caps :=
  (reMatchAt ci re s.data).map Prod.fst

/-- Scan for the leftmost match of an unanchored regex. -/
def reScan (ci : Bool) (re : RE) : List Char → Option Caps
  | [] =>
    match reMatchAt ci re [] with
    | some (caps, _) => some caps
    | none => none
  | c :: t =>
    match reMatchAt ci re (c :: t) with
    | some (caps, _) => some caps
    | none => reScan ci re t

/-- `String.prototype.match` for an unanchored regex without `/g`. -/
def reMatch (ci : Bool) (re : RE) (s : String) : Option Caps :=
  reScan ci re s.data

/-- Matching with the `/g` flag: all matched substrings, scanning left to
right and resuming after each match. -/
def reFindAllAux (ci : Bool) (re : RE) : Nat → List Char → List String
  | 0, _ => []
  | fuel + 1, cs =>
    match reMatchAt ci re cs with
    | some (_, len) =>
      String.mk (cs.take len) :: reFindAllAux ci re fuel (cs.drop (max len 1))
    | none =>
      match cs with
      | [] => []
      | _ :: t => reFindAllAux ci re fuel t

/-- `s.match(re_with_g_flag)`, as the list of matched substrings. -/
def reFindAll (ci : Bool) (re : RE) (s : String) : List String :=
  reFindAllAux ci re s.data.length s.data

/-! ## Semantic matching relation and matcher soundness

`MRE ci re xs c` says: the regex `re` matches exactly the characters `xs`,
producing the capture entries `c` (most recently closed group first).  The
soundness theorem below shows every success of the backtracking matcher is
justified by this relation; its corollaries (captures are substrings of the
input, captures carry only the regex's own group indices) are what the
fail-closed analysis of the parser needs. -/

inductive MRE : Bool → RE → List Char → Caps → Prop where
  | eps : MRE ci .eps [] []
  | lit (h : litEat ci s.data t = some []) : MRE ci (.lit s) t []
  | cls (h : CCls.test ci c a = true) : MRE ci (.cls c) [a] []
  | cnt (hlen : xs.length = n) (hall : xs.all (CCls.test ci c) = true) :
      MRE ci (.cnt c n) xs []
  | between (hlo : lo ≤ xs.length) (hhi : xs.length ≤ hi)
      (hall : xs.all (CCls.test ci c) = true) : MRE ci (.between c lo hi) xs []
  | plus (hlo : 1 ≤ xs.length) (hall : xs.all (CCls.test ci c) = true) :
      MRE ci (.plus c) xs []
  | star (hall : xs.all (CCls.test ci c) = true) : MRE ci (.star c) xs []
  | rep0 : MRE ci (.rep r 0) [] []
  | repS : MRE ci r xs cx → MRE ci (.rep r n) ys cy →
      MRE ci (.rep r (n + 1)) (xs ++ ys) (cy ++ cx)
  | optS : MRE ci r xs c → MRE ci (.opt r) xs c
  | optN : MRE ci (.opt r) [] []
  | gap : MRE ci .gap xs []
  | grp : MRE ci r xs c → MRE ci (.grp i r) xs ((i, String.mk xs) :: c)
  | altL : MRE ci a xs c → MRE ci (.alt a b) xs c
  | altR : MRE ci b xs c → MRE ci (.alt a b) xs c
  | cat : MRE ci a xs ca → MRE ci b ys cb → MRE ci (.cat a b) (xs ++ ys) (cb ++ ca)

theorem litEat_split (ci : Bool) :
    ∀ (l cs rest : List Char), litEat ci l cs = some rest →
      ∃ pre, cs = pre ++ rest ∧ litEat ci l pre = some [] := by
  intro l
  induction l with
  | nil =>
    intro cs rest h
    simp only [litEat] at h
    injection h with h
    exact ⟨[], by simp [h], rfl⟩
  | cons x xs ih =>
    intro cs rest h
    cases cs with
    | nil => simp [litEat] at h
    | cons c cs' =>
      simp only [litEat] at h
      by_cases hc : chEq ci x c = true
      · rw [if_pos hc] at h
        obtain ⟨pre, hpre, hlit⟩ := ih cs' rest h
        exact ⟨c :: pre, by simp [hpre], by simp [litEat, hc, hlit]⟩
      · rw [if_neg hc] at h
        exact absurd h (by simp)

theorem gapTry_sound {α : Type} (cont : List Char → Option α) :
    ∀ (cs : List Char) (r : α), gapTry cont cs = some r →
      ∃ pre rest, cs = pre ++ rest ∧ cont rest = some r := by
  intro cs
  induction cs with
  | nil =>
    intro r h
    simp only [gapTry] at h
    exact ⟨[], [], rfl, h⟩
  | cons c t ih =>
    intro r h
    simp only [gapTry] at h
    cases hm : cont (c :: t) with
    | some v => rw [hm] at h; exact ⟨[], c :: t, rfl, hm.trans h⟩
    | none =>
      rw [hm] at h
      obtain ⟨pre, rest, heq, hc⟩ := ih r h
      exact ⟨c :: pre, rest, by simp [heq], hc⟩

theorem greedyTry_sound {α : Type} (cont : Nat → Option α) (lo : Nat) :
    ∀ (k : Nat) (r : α), greedyTry cont lo k = some r →
      ∃ j, lo ≤ j ∧ j ≤ k ∧ cont j = some r := by
  intro k
  induction k with
  | zero =>
    intro r h
    simp only [greedyTry] at h
    by_cases hlo : 0 < lo
    · rw [if_pos hlo] at h; exact absurd h (by simp)
    · rw [if_neg hlo] at h
      exact ⟨0, Nat.le_of_not_lt (by simpa using hlo), Nat.le_refl 0, h⟩
  | succ k ih =>
    intro r h
    simp only [greedyTry] at h
    by_cases hlo : k + 1 < lo
    · rw [if_pos hlo] at h; exact absurd h (by simp)
    · rw [if_neg hlo] at h
      cases hm : cont (k + 1) with
      | some v => rw [hm] at h; exact ⟨k + 1, Nat.le_of_not_lt hlo, Nat.le_refl _, hm.trans h⟩
      | none =>
        rw [hm] at h
        obtain ⟨j, h1, h2, h3⟩ := ih r h
        exact ⟨j, h1, Nat.le_succ_of_le h2, h3⟩

theorem clsRun_le_length (ci : Bool) (c : CCls) :
    ∀ cs : List Char, clsRun ci c cs ≤ cs.length := by
  intro cs
  induction cs with
  | nil => simp [clsRun]
  | cons x xs ih =>
    simp only [clsRun]
    by_cases hx : CCls.test ci c x = true
    · rw [if_pos hx]; simpa using Nat.succ_le_succ ih
    · rw [if_neg hx]; simp

theorem clsRun_take_all (ci : Bool) (c : CCls) :
    ∀ (cs : List Char) (j : Nat), j ≤ clsRun ci c cs →
      (cs.take j).all (CCls.test ci c) = true := by
  intro cs
  induction cs with
  | nil => intro j hj; simp [clsRun] at hj; simp [hj]
  | cons x xs ih =>
    intro j hj
    simp only [clsRun] at hj
    by_cases hx : CCls.test ci c x = true
    · rw [if_pos hx] at hj
      cases j with
      | zero => simp
      | succ j' =>
        simp only [List.take_succ_cons, List.all_cons, hx, Bool.true_and]
        exact ih j' (Nat.le_of_succ_le_succ hj)
    · rw [if_neg hx] at hj
      interval_cases j
      simp

theorem mrep_sound {α : Type} (ci : Bool) (r : RE)
    (mr : List Char → Caps → (List Char → Caps → Option α) → Option α)
    (hmr : ∀ cs caps k res, mr cs caps k = some res →
      ∃ pre rest cnew, cs = pre ++ rest ∧ MRE ci r pre cnew ∧ k rest (cnew ++ caps) = some res) :
    ∀ (n : Nat) (cs : List Char) (caps : Caps) (k : List Char → Caps → Option α) (res : α),
      mrep mr n cs caps k = some res →
      ∃ pre rest cnew, cs = pre ++ rest ∧ MRE ci (.rep r n) pre cnew ∧
        k rest (cnew ++ caps) = some res := by
  intro n
  induction n with
  | zero =>
    intro cs caps k res h
    simp only [mrep] at h
    exact ⟨[], cs, [], rfl, MRE.rep0, h⟩
  | succ n ih =>
    intro cs caps k res h
    simp only [mrep] at h
    obtain ⟨pre1, rest1, c1, heq1, hm1, h1⟩ := hmr _ _ _ _ h
    obtain ⟨pre2, rest, c2, heq2, hm2, h2⟩ := ih _ _ _ _ h1
    refine ⟨pre1 ++ pre2, rest, c2 ++ c1, ?_, MRE.repS hm1 hm2, ?_⟩
    · rw [heq1, heq2, List.append_assoc]
    · rw [List.append_assoc]
      exact h2

theorem mtry_sound {α : Type} (ci : Bool) :
    ∀ (re : RE) (cs : List Char) (caps : Caps) (k : List Char → Caps → Option α) (r : α),
      mtry ci re cs caps k = some r →
      ∃ pre rest cnew, cs = pre ++ rest ∧ MRE ci re pre cnew ∧
        k rest (cnew ++ caps) = some r := by
  intro re
  induction re with
  | eps =>
    intro cs caps k r h
    simp only [mtry] at h
    exact ⟨[], cs, [], rfl, MRE.eps, h⟩
  | lit s =>
    intro cs caps k r h
    simp only [mtry] at h
    cases hm : litEat ci s.data cs with
    | none => rw [hm] at h; exact absurd h (by simp)
    | some rest =>
      rw [hm] at h
      obtain ⟨pre, hpre, hlit⟩ := litEat_split ci s.data cs rest hm
      exact ⟨pre, rest, [], hpre, MRE.lit hlit, h⟩
  | cls c =>
    intro cs caps k r h
    simp only [mtry] at h
    cases cs with
    | nil =>
      have h' : (none : Option α) = some r := h
      exact absurd h' (by simp)
    | cons x rest =>
      have h' : (if CCls.test ci c x = true then k rest caps else none) = some r := h
      by_cases hx : CCls.test ci c x = true
      · rw [if_pos hx] at h'
        exact ⟨[x], rest, [], rfl, MRE.cls hx, h'⟩
      · rw [if_neg hx] at h'; exact absurd h' (by simp)
  | cnt c n =>
    intro cs caps k r h
    simp only [mtry] at h
    by_cases hn : n ≤ clsRun ci c cs
    · rw [if_pos hn] at h
      have hlen : n ≤ cs.length := le_trans hn (clsRun_le_length ci c cs)
      refine ⟨cs.take n, cs.drop n, [], (List.take_append_drop n cs).symm,
        MRE.cnt ?_ (clsRun_take_all ci c cs n hn), h⟩
      simp [List.length_take, Nat.min_eq_left hlen]
    · rw [if_neg hn] at h; exact absurd h (by simp)
  | between c lo hi =>
    intro cs caps k r h
    simp only [mtry] at h
    obtain ⟨j, hlo, hhi, hc⟩ := greedyTry_sound _ _ _ _ h
    have hj1 : j ≤ hi := le_trans hhi (min_le_left _ _)
    have hj2 : j ≤ clsRun ci c cs := le_trans hhi (min_le_right _ _)
    have hlen : j ≤ cs.length := le_trans hj2 (clsRun_le_length ci c cs)
    have htl : (cs.take j).length = j := by simp [List.length_take, Nat.min_eq_left hlen]
    refine ⟨cs.take j, cs.drop j, [], (List.take_append_drop j cs).symm,
      MRE.between ?_ ?_ (clsRun_take_all ci c cs j hj2), hc⟩
    · rw [htl]; exact hlo
    · rw [htl]; exact hj1
  | plus c =>
    intro cs caps k r h
    simp only [mtry] at h
    obtain ⟨j, hlo, hhi, hc⟩ := greedyTry_sound _ _ _ _ h
    have hlen : j ≤ cs.length := le_trans hhi (clsRun_le_length ci c cs)
    have htl : (cs.take j).length = j := by simp [List.length_take, Nat.min_eq_left hlen]
    refine ⟨cs.take j, cs.drop j, [], (List.take_append_drop j cs).symm,
      MRE.plus ?_ (clsRun_take_all ci c cs j hhi), hc⟩
    rw [htl]; exact hlo
  | star c =>
    intro cs caps k r h
    simp only [mtry] at h
    obtain ⟨j, _, hhi, hc⟩ := greedyTry_sound _ _ _ _ h
    exact ⟨cs.take j, cs.drop j, [], (List.take_append_drop j cs).symm,
      MRE.star (clsRun_take_all ci c cs j hhi), hc⟩
  | rep r n ih =>
    intro cs caps k res h
    simp only [mtry] at h
    exact mrep_sound ci r (mtry ci r) (fun cs caps k res => ih cs caps k res) n cs caps k res h
  | opt r ih =>
    intro cs caps k res h
    simp only [mtry] at h
    cases hm : mtry ci r cs caps k with
    | some v =>
      rw [hm] at h
      injection h with h
      subst h
      obtain ⟨pre, rest, cnew, heq, hmre, hk⟩ := ih cs caps k v hm
      exact ⟨pre, rest, cnew, heq, MRE.optS hmre, hk⟩
    | none =>
      rw [hm] at h
      exact ⟨[], cs, [], rfl, MRE.optN, h⟩
  | gap =>
    intro cs caps k r h
    simp only [mtry] at h
    obtain ⟨pre, rest, heq, hc⟩ := gapTry_sound _ cs r h
    exact ⟨pre, rest, [], heq, MRE.gap, hc⟩
  | grp i r ih =>
    intro cs caps k res h
    simp only [mtry] at h
    obtain ⟨pre, rest, cnew, heq, hmre, hk⟩ := ih cs caps _ res h
    have hlen : cs.length - rest.length = pre.length := by rw [heq]; simp
    have htake : cs.take (cs.length - rest.length) = pre := by
      rw [hlen, heq]; exact List.take_left pre rest
    rw [htake] at hk
    exact ⟨pre, rest, (i, String.mk pre) :: cnew, heq, MRE.grp hmre, hk⟩
  | alt a b iha ihb =>
    intro cs caps k res h
    simp only [mtry] at h
    cases hm : mtry ci a cs caps k with
    | some v =>
      rw [hm] at h
      injection h with h
      subst h
      obtain ⟨pre, rest, cnew, heq, hmre, hk⟩ := iha cs caps k v hm
      exact ⟨pre, rest, cnew, heq, MRE.altL hmre, hk⟩
    | none =>
      rw [hm] at h
      obtain ⟨pre, rest, cnew, heq, hmre, hk⟩ := ihb cs caps k res h
      exact ⟨pre, rest, cnew, heq, MRE.altR hmre, hk⟩
  | cat a b iha ihb =>
    intro cs caps k res h
    simp only [mtry] at h
    obtain ⟨pre1, rest1, c1, heq1, hm1, h1⟩ := iha cs caps _ res h
    obtain ⟨pre2, rest, c2, heq2, hm2, h2⟩ := ihb rest1 (c1 ++ caps) k res h1
    refine ⟨pre1 ++ pre2, rest, c2 ++ c1, ?_, MRE.cat hm1 hm2, ?_⟩
    · rw [heq1, heq2, List.append_assoc]
    · rw [List.append_assoc]; exact h2

/-! ### Substring facts about successful matches -/

theorem subL_refl (l : List Char) : subL l l := ⟨[], [], by simp⟩

theorem subL_appendL {n xs : List Char} (ys : List Char) (h : subL n xs) :
    subL n (xs ++ ys) := by
  obtain ⟨p, q, hpq⟩ := h
  exact ⟨p, q ++ ys, by rw [hpq]; simp⟩

theorem subL_appendR {n ys : List Char} (xs : List Char) (h : subL n ys) :
    subL n (xs ++ ys) := by
  obtain ⟨p, q, hpq⟩ := h
  exact ⟨xs ++ p, q, by rw [hpq]; simp⟩

theorem subL_trans {a b c : List Char} (h1 : subL a b) (h2 : subL b c) : subL a c := by
  obtain ⟨p, q, hpq⟩ := h1
  obtain ⟨u, v, huv⟩ := h2
  exact ⟨u ++ p, q ++ v, by rw [huv, hpq]; simp⟩

theorem subL_map (f : Char → Char) {n h : List Char} (hs : subL n h) :
    subL (n.map f) (h.map f) := by
  obtain ⟨p, q, hpq⟩ := hs
  exact ⟨p.map f, q.map f, by rw [hpq]; simp⟩

theorem MRE_caps_sub {ci : Bool} {re : RE} {xs : List Char} {c : Caps}
    (h : MRE ci re xs c) : ∀ p ∈ c, subL (String.data p.2) xs := by
  induction h with
  | eps => simp
  | lit _ => simp
  | cls _ => simp
  | cnt _ _ => simp
  | between _ _ _ => simp
  | plus _ _ => simp
  | star _ => simp
  | rep0 => simp
  | repS h1 h2 ih1 ih2 =>
    intro p hp
    rcases List.mem_append.mp hp with hx | hx
    · exact subL_appendR _ (ih2 p hx)
    · exact subL_appendL _ (ih1 p hx)
  | optS h ih => exact ih
  | optN => simp
  | gap => simp
  | grp h ih =>
    intro p hp
    rcases List.mem_cons.mp hp with rfl | hx
    · exact subL_refl _
    · exact ih p hx
  | altL h ih => exact ih
  | altR h ih => exact ih
  | cat h1 h2 ih1 ih2 =>
    intro p hp
    rcases List.mem_append.mp hp with hx | hx
    · exact subL_appendR _ (ih2 p hx)
    · exact subL_appendL _ (ih1 p hx)

/-- Capture-group indices a regex can bind. -/
def reIdxs : RE → List Nat
  | .rep r _ => reIdxs r
  | .opt r => reIdxs r
  | .grp i r => i :: reIdxs r
  | .alt a b => reIdxs a ++ reIdxs b
  | .cat a b => reIdxs a ++ reIdxs b
  | _ => []

theorem MRE_caps_idx {ci : Bool} {re : RE} {xs : List Char} {c : Caps}
    (h : MRE ci re xs c) : ∀ p ∈ c, p.1 ∈ reIdxs re := by
  induction h with
  | eps => simp
  | lit _ => simp
  | cls _ => simp
  | cnt _ _ => simp
  | between _ _ _ => simp
  | plus _ _ => simp
  | star _ => simp
  | rep0 => simp
  | repS h1 h2 ih1 ih2 =>
    intro p hp
    rcases List.mem_append.mp hp with hx | hx
    · exact ih2 p hx
    · exact ih1 p hx
  | optS h ih => exact ih
  | optN => simp
  | gap => simp
  | grp h ih =>
    intro p hp
    rcases List.mem_cons.mp hp with rfl | hx
    · exact List.mem_cons_self _ _
    · exact List.mem_cons_of_mem _ (ih p hx)
  | altL h ih =>
    intro p hp
    exact List.mem_append_left _ (ih p hp)
  | altR h ih =>
    intro p hp
    exact List.mem_append_right _ (ih p hp)
  | cat h1 h2 ih1 ih2 =>
    intro p hp
    rcases List.mem_append.mp hp with hx | hx
    · exact List.mem_append_right _ (ih2 p hx)
    · exact List.mem_append_left _ (ih1 p hx)

theorem capsGet_append_ne (l1 l2 : Caps) (i : Nat) (h : ∀ p ∈ l1, p.1 ≠ i) :
    capsGet (l1 ++ l2) i = capsGet l2 i := by
  induction l1 with
  | nil => rfl
  | cons x xs ih =>
    have hx : (x.1 == i) = false := by
      simpa using h x (List.mem_cons_self _ _)
    simp only [capsGet, List.cons_append]
    rw [List.find?_cons_of_neg _ (by simp [hx])]
    exact ih (fun p hp => h p (List.mem_cons_of_mem _ hp))

theorem capsGet_mem {caps : Caps} {i : Nat} {v : String} (h : capsGet caps i = some v) :
    (i, v) ∈ caps := by
  unfold capsGet at h
  cases hf : caps.find? (fun p => p.1 == i) with
  | none => rw [hf] at h; exact absurd h (by simp)
  | some p =>
    rw [hf] at h
    have hm := List.mem_of_find?_eq_some hf
    have hp := List.find?_some hf
    simp only [Option.map_some'] at h
    injection h with h
    have : p.1 = i := by simpa using hp
    have : p = (i, v) := by
      cases p with
      | mk a b => simp_all
    exact this ▸ hm

theorem reMatchAt_sound {ci : Bool} {re : RE} {cs : List Char} {caps : Caps} {n : Nat}
    (h : reMatchAt ci re cs = some (caps, n)) :
    ∃ pre rest, cs = pre ++ rest ∧ MRE ci re pre caps := by
  obtain ⟨pre, rest, cnew, heq, hm, hk⟩ := mtry_sound ci re cs [] _ _ h
  have hk' : some (cnew ++ [], cs.length - rest.length) = some (caps, n) := hk
  rw [List.append_nil] at hk'
  injection hk' with hp
  injection hp with h1 h2
  exact ⟨pre, rest, heq, h1 ▸ hm⟩

theorem reMatchA_sound {ci : Bool} {re : RE} {s : String} {caps : Caps}
    (h : reMatchA ci re s = some caps) :
    ∃ pre rest, s.data = pre ++ rest ∧ MRE ci re pre caps := by
  unfold reMatchA at h
  cases hm : reMatchAt ci re s.data with
  | none => rw [hm] at h; exact absurd h (by simp)
  | some p =>
    rw [hm] at h
    simp only [Option.map_some'] at h
    injection h with h
    cases p with
    | mk c n =>
      have hc : c = caps := h
      exact reMatchAt_sound (by rw [← hc]; exact hm)

theorem reScan_sound {ci : Bool} {re : RE} :
    ∀ {cs : List Char} {caps : Caps}, reScan ci re cs = some caps →
      ∃ pre mid rest, cs = pre ++ mid ++ rest ∧ MRE ci re mid caps := by
  intro cs
  induction cs with
  | nil =>
    intro caps h
    simp only [reScan] at h
    cases hm : reMatchAt ci re [] with
    | none => rw [hm] at h; exact absurd h (by simp)
    | some p =>
      rw [hm] at h
      cases p with
      | mk c n =>
        injection h with h
        obtain ⟨pre, rest, heq, hmre⟩ := reMatchAt_sound (h ▸ hm)
        exact ⟨[], pre, rest, by simpa using heq, hmre⟩
  | cons c t ih =>
    intro caps h
    simp only [reScan] at h
    cases hm : reMatchAt ci re (c :: t) with
    | none =>
      rw [hm] at h
      obtain ⟨pre, mid, rest, heq, hmre⟩ := ih h
      exact ⟨c :: pre, mid, rest, by simp [heq], hmre⟩
    | some p =>
      rw [hm] at h
      cases p with
      | mk cp n =>
        injection h with h
        obtain ⟨pre, rest, heq, hmre⟩ := reMatchAt_sound (h ▸ hm)
        exact ⟨[], pre, rest, by simpa using heq, hmre⟩

theorem reMatch_sound {ci : Bool} {re : RE} {s : String} {caps : Caps}
    (h : reMatch ci re s = some caps) :
    ∃ pre mid rest, s.data = pre ++ mid ++ rest ∧ MRE ci re mid caps :=
  reScan_sound h

/-- Every capture of a successful anchored match is a substring of the input. -/
theorem reMatchA_cap_sub {ci : Bool} {re : RE} {s : String} {caps : Caps} {i : Nat} {v : String}
    (h : reMatchA ci re s = some caps) (hc : capsGet caps i = some v) :
    subL v.data s.data := by
  obtain ⟨pre, rest, heq, hm⟩ := reMatchA_sound h
  have hsub := MRE_caps_sub hm (i, v) (capsGet_mem hc)
  rw [heq]
  exact subL_appendL _ hsub

/-- Every capture of a successful unanchored match is a substring of the input. -/
theorem reMatch_cap_sub {ci : Bool} {re : RE} {s : String} {caps : Caps} {i : Nat} {v : String}
    (h : reMatch ci re s = some caps) (hc : capsGet caps i = some v) :
    subL v.data s.data := by
  obtain ⟨pre, mid, rest, heq, hm⟩ := reMatch_sound h
  have hsub := MRE_caps_sub hm (i, v) (capsGet_mem hc)
  rw [heq]
  exact subL_appendL _ (subL_appendR _ hsub)

theorem leadEq_iff (n : List Char) : ∀ h : List Char, leadEq n h = true ↔ ∃ t, h = n ++ t := by
  induction n with
  | nil => intro h; simp [leadEq]
  | cons x xs ih =>
    intro h
    cases h with
    | nil => simp [leadEq]
    | cons c cs =>
      simp only [leadEq, Bool.and_eq_true, decide_eq_true_eq, ih]
      constructor
      · rintro ⟨rfl, t, rfl⟩
        exact ⟨t, rfl⟩
      · rintro ⟨t, ht⟩
        injection ht with h1 h2
        exact ⟨h1.symm, t, h2⟩

theorem containsL_iff (needle : List Char) :
    ∀ hay : List Char, containsL hay needle = true ↔ subL needle hay := by
  intro hay
  induction hay with
  | nil =>
    rw [containsL]
    by_cases hl : leadEq needle [] = true
    · rw [if_pos hl]
      obtain ⟨t, ht⟩ := (leadEq_iff needle []).mp hl
      have hn : needle = [] := by
        cases needle with
        | nil => rfl
        | cons a b => exact absurd ht (by simp)
      subst hn
      simp [subL_refl]
    · rw [if_neg hl]
      constructor
      · intro hfalse; exact absurd hfalse (by simp)
      · rintro ⟨p, q, hpq⟩
        exfalso
        have hp : p = [] ∧ needle = [] := by
          constructor
          · cases p with
            | nil => rfl
            | cons a b => exact absurd hpq (by simp)
          · cases p with
            | nil =>
              cases needle with
              | nil => rfl
              | cons a b => exact absurd hpq (by simp)
            | cons a b => exact absurd hpq (by simp)
        exact hl ((leadEq_iff needle []).mpr ⟨[], by simp [hp.2]⟩)
  | cons c t ih =>
    rw [containsL]
    by_cases hl : leadEq needle (c :: t) = true
    · rw [if_pos hl]
      obtain ⟨tl, htl⟩ := (leadEq_iff needle (c :: t)).mp hl
      simp only [true_iff]
      exact ⟨[], tl, by simpa using htl⟩
    · rw [if_neg hl]
      rw [ih]
      constructor
      · intro hs
        obtain ⟨p, q, hpq⟩ := hs
        exact ⟨c :: p, q, by simp [hpq]⟩
      · rintro ⟨p, q, hpq⟩
        cases p with
        | nil =>
          exfalso
          exact hl ((leadEq_iff needle (c :: t)).mpr ⟨q, by simpa using hpq⟩)
        | cons ph pt =>
          injection hpq with h1 h2
          exact ⟨pt, q, h2⟩

/-! ## Regex literals of the sources, transcribed

One Lean definition per regex literal.  Group numbers follow JavaScript's
left-to-right numbering of capturing parentheses.  `qm` is the double-quote
character, `bsl` a literal backslash (several source regexes contain `\\`
inside a literal, which matches a backslash character, and `[^\\s]`, which
excludes the backslash and the letter `s` — these source quirks are kept). -/

/-- Sequence a list of regexes. -/
def rseq (l : List RE) : RE := l.foldr RE.cat RE.eps

/-- The double-quote character as a string. -/
def qm : String := String.mk [Char.ofNat 34]

/-- A literal backslash as a string. -/
def bsl : String := String.mk [Char.ofNat 92]

/-- The character class `[\\d.]` of the source `SRC=([\\d.]+)` groups:
a backslash, the letter `d`, or a dot (not digits — source quirk kept). -/
def bslDotCls : CCls := .oneOf [Char.ofNat 92, 'd', '.']

/-- Syslog timestamp group `(\w{3}\s+\d{1,2}\s+\d{2}:\d{2}:\d{2})`. -/
def sysTs : RE :=
  .grp 1 (rseq [.cnt .word 3, .plus .wsp, .between .digit 1 2, .plus .wsp,
    .cnt .digit 2, .lit ":", .cnt .digit 2, .lit ":", .cnt .digit 2])

/-- ISO timestamp group `(\d{4}-\d{2}-\d{2}T\d{2}:\d{2}:\d{2}(?:\.\d{3})?Z?)`. -/
def isoTsG (i : Nat) : RE :=
  .grp i (rseq [.cnt .digit 4, .lit "-", .cnt .digit 2, .lit "-", .cnt .digit 2,
    .lit "T", .cnt .digit 2, .lit ":", .cnt .digit 2, .lit ":", .cnt .digit 2,
    .opt (.cat (.lit ".") (.cnt .digit 3)), .opt (.lit "Z")])

/-- SONICOS_7_PATTERNS.standard (log-parser-enhanced.ts line 10). -/
def v7standardRE : RE := rseq [
  sysTs, .plus .wsp, .grp 2 (.plus .nonWsp), .plus .wsp,
  .lit "id=", .grp 3 (.plus .word), .plus .wsp,
  .lit "sn=", .grp 4 (.star .nonWsp), .plus .wsp,
  .lit ("time=" ++ qm), .grp 5 (.star .notQuote), .lit qm,
  .gap, .lit "fw=", .grp 6 (.plus .nonWsp),
  .gap, .lit "pri=", .grp 7 (.plus .digit),
  .gap, .lit "c=", .grp 8 (.plus .digit),
  .gap, .lit ("m=" ++ qm), .grp 9 (.star .notQuote), .lit qm,
  .gap, .lit "src=", .grp 10 (.plus .notColon), .opt (.lit ":"), .opt (.grp 11 (.plus .digit)),
  .gap, .lit "dst=", .grp 12 (.plus .notColon), .opt (.lit ":"), .opt (.grp 13 (.plus .digit)),
  .gap, .lit "proto=", .grp 14 (.plus .word),
  .gap, .opt (.cat (.lit "rule=") (.grp 15 (.plus .digit)))]

/-- SONICOS_7_PATTERNS.simple = SONICOS_8_PATTERNS.standard (lines 13 and 33),
an `/i` pattern; the `/i` flag is supplied at the call sites. -/
def simpleRE : RE := rseq [
  isoTsG 1, .plus .wsp, .gap,
  .grp 2 (.alt (.lit "ALLOW") (.alt (.lit "DENY") (.alt (.lit "DROP") (.lit "RESET")))),
  .gap, .lit "SRC=", .grp 3 (.plus bslDotCls),
  .gap, .lit "DST=", .grp 4 (.plus bslDotCls),
  .gap, .lit "PROTO=", .grp 5 (.plus .word),
  .opt (rseq [.gap, .lit "SPT=", .grp 6 (.plus .digit)]),
  .opt (rseq [.gap, .lit "DPT=", .grp 7 (.plus .digit)])]

/-- SONICOS_7_PATTERNS.ips (line 16); `sig=([^\\s]+)` keeps the source's
backslash-escaped class. -/
def v7ipsRE : RE := rseq [
  sysTs, .plus .wsp, .gap, .lit "IPS",
  .gap, .lit "pri=", .grp 2 (.plus .digit),
  .gap, .lit "src=", .grp 3 (.plus .notColon), .opt (.lit ":"), .opt (.grp 4 (.plus .digit)),
  .gap, .lit "dst=", .grp 5 (.plus .notColon), .opt (.lit ":"), .opt (.grp 6 (.plus .digit)),
  .gap, .lit "sig=", .grp 7 (.plus .notBackslashS),
  .gap, .lit ("msg=" ++ qm), .grp 8 (.star .notQuote), .lit qm]

/-- SONICOS_7_PATTERNS.vpn (line 19) up to (excluding) `result=`. -/
def v7vpnPre : RE := rseq [
  sysTs, .plus .wsp, .gap, .lit "VPN",
  .gap, .lit ("user=" ++ qm), .grp 2 (.star .notQuote), .lit qm,
  .gap, .lit "src=", .grp 3 (.plus .notColon),
  .gap, .lit "dst=", .grp 4 (.plus .notColon),
  .gap]

/-- SONICOS_7_PATTERNS.vpn after its `result` group. -/
def v7vpnPost : RE := rseq [.gap, .lit ("msg=" ++ qm), .grp 6 (.star .notQuote), .lit qm]

/-- SONICOS_7_PATTERNS.vpn (line 19).  The source writes `result=(\\w+)`
inside a regex literal, so the group matches a literal backslash followed by
one or more letters `w`. -/
def v7vpnRE : RE :=
  .cat v7vpnPre
    (.cat (.lit "result=")
      (.cat (.grp 5 (.cat (.lit bsl) (.plus (.oneOf ['w'])))) v7vpnPost))

/-- SONICOS_8_PATTERNS.enhanced (line 24). -/
def v8enhancedRE : RE := rseq [
  isoTsG 1, .plus .wsp, .grp 2 (.plus .nonWsp), .plus .wsp,
  .lit "id=", .grp 3 (.plus .word), .plus .wsp,
  .lit "sn=", .grp 4 (.star .nonWsp), .plus .wsp,
  .lit ("time=" ++ qm), .grp 5 (.star .notQuote), .lit qm,
  .gap, .lit "fw=", .grp 6 (.plus .nonWsp),
  .gap, .lit "pri=", .grp 7 (.plus .digit),
  .gap, .lit "c=", .grp 8 (.plus .digit),
  .gap, .lit ("m=" ++ qm), .grp 9 (.star .notQuote), .lit qm,
  .gap, .lit "src=", .grp 10 (.plus .notColon), .opt (.lit ":"), .opt (.grp 11 (.plus .digit)),
  .gap, .lit "dst=", .grp 12 (.plus .notColon), .opt (.lit ":"), .opt (.grp 13 (.plus .digit)),
  .gap, .lit "proto=", .grp 14 (.plus .word),
  .gap, .opt (.cat (.lit "rule=") (.grp 15 (.plus .digit))),
  .opt (rseq [.gap, .lit "cloud_id=", .grp 16 (.plus .nonWsp)]),
  .opt (rseq [.gap, .lit "tenant_id=", .grp 17 (.plus .nonWsp)])]

/-- SONICOS_8_PATTERNS.atp (line 27). -/
def v8atpRE : RE := rseq [
  isoTsG 1, .plus .wsp, .gap, .lit "ATP",
  .gap, .lit "threat_type=", .grp 2 (.plus .word),
  .gap, .lit "severity=", .grp 3 (.plus .word),
  .gap, .lit "src=", .grp 4 (.plus .notColon),
  .gap, .lit "dst=", .grp 5 (.plus .notColon),
  .gap, .lit "file_hash=", .opt (.grp 6 (.plus .hex)),
  .gap, .lit "verdict=", .grp 7 (.plus .word),
  .gap, .lit ("msg=" ++ qm), .grp 8 (.star .notQuote), .lit qm]

/-- SONICOS_8_PATTERNS.capture_atp (line 30) up to (excluding) `disposition=`. -/
def v8captureAtpPre : RE := rseq [
  isoTsG 1, .plus .wsp, .gap, .lit "CAPTURE",
  .gap, .lit "analysis_time=", .grp 2 (.plus .digit),
  .gap, .lit "file_type=", .grp 3 (.plus .word),
  .gap, .lit ("threat_name=" ++ qm), .grp 4 (.star .notQuote), .lit qm,
  .gap, .lit "src=", .grp 5 (.plus .notColon),
  .gap, .lit "dst=", .grp 6 (.plus .notColon),
  .gap]

/-- SONICOS_8_PATTERNS.capture_atp (line 30). -/
def v8captureAtpRE : RE :=
  .cat v8captureAtpPre (.cat (.lit "disposition=") (.grp 7 (.plus .word)))

/-- The main pattern of the basic parser (log-parser.ts line 8); its
`fw=([^\\s]+)` group keeps the source's backslash-escaped class. -/
def basicLogRE : RE := rseq [
  sysTs, .gap, .lit "id=", .grp 2 (.plus .word),
  .gap, .lit ("time=" ++ qm), .grp 3 (.star .notQuote), .lit qm,
  .gap, .lit "fw=", .grp 4 (.plus .notBackslashS),
  .gap, .lit "pri=", .grp 5 (.plus .digit),
  .gap, .lit "c=", .grp 6 (.plus .digit),
  .gap, .lit ("m=" ++ qm), .grp 7 (.star .notQuote), .lit qm,
  .gap, .lit "src=", .grp 8 (.plus .notColon), .opt (.lit ":"), .opt (.grp 9 (.plus .digit)),
  .gap, .lit "dst=", .grp 10 (.plus .notColon), .opt (.lit ":"), .opt (.grp 11 (.plus .digit)),
  .gap, .lit "proto=", .grp 12 (.plus .word),
  .gap, .lit "rule=", .grp 13 (.plus .digit)]

/-- The alternative pattern of the basic parser (log-parser.ts line 57),
an `/i` pattern. -/
def basicSimpleRE : RE := rseq [
  .grp 1 (rseq [.cnt .digit 4, .lit "-", .cnt .digit 2, .lit "-", .cnt .digit 2,
    .lit "T", .cnt .digit 2, .lit ":", .cnt .digit 2, .lit ":", .cnt .digit 2]),
  .gap, .grp 2 (.alt (.lit "ALLOW") (.alt (.lit "DENY") (.lit "DROP"))),
  .gap, .lit "SRC=", .grp 3 (.plus bslDotCls),
  .gap, .lit "DST=", .grp 4 (.plus bslDotCls),
  .gap, .lit "PROTO=", .grp 5 (.plus .word)]

/-- One dotted-quad octet `25[0-5]|2[0-4][0-9]|[01]?[0-9][0-9]?`. -/
def octetRE : RE :=
  .alt (.cat (.lit "25") (.cls (.range '0' '5')))
    (.alt (.cat (.lit "2") (.cat (.cls (.range '0' '4')) (.cls .digit)))
      (rseq [.opt (.cls (.oneOf ['0', '1'])), .cls .digit, .opt (.cls .digit)]))

/-- The fallback IPv4 pattern (log-parser-enhanced.ts line 282).  The source
writes `\\.` inside a regex literal, so between octets it requires a literal
backslash followed by an arbitrary character (source quirk kept). -/
def fallbackIpRE : RE :=
  .cat (.rep (rseq [octetRE, .lit bsl, .cls .anyc]) 3) octetRE

/-- The fallback action pattern `(ALLOW|DENY|DROP|RESET|BLOCK)/i`
(log-parser-enhanced.ts line 285). -/
def fallbackActionRE : RE :=
  .grp 1 (.alt (.lit "ALLOW") (.alt (.lit "DENY")
    (.alt (.lit "DROP") (.alt (.lit "RESET") (.lit "BLOCK")))))

/-! ## Canonical data model (types.ts) -/

namespace SW

inductive Severity where
  | critical | high | medium | low | info
deriving DecidableEq

inductive Category where
  | firewall | vpn | ips | antivirus | system
deriving DecidableEq

/-- Actions.  The TS union is `allow | deny | drop | reset`; `block` is an
extra value that escapes the union through the unchecked cast in
`createFallbackLogEntry` when the fallback pattern matches a `BLOCK` token. -/
inductive Action where
  | allow | deny | drop | reset | block
deriving DecidableEq

inductive Protocol where
  | tcp | udp | icmp | other
deriving DecidableEq

/-- Canonical log entry (types.ts `LogEntry`).  `timestamp` is epoch
milliseconds; `none` models a JavaScript `Invalid Date` object (truthy, but
with a `NaN` time value). -/
structure LogEntry where
  id : String
  timestamp : Option Int
  severity : Severity
  category : Category
  action : Action
  sourceIp : String
  sourcePort : Option Int
  destIp : String
  destPort : Option Int
  protocol : Protocol
  rule : Option String
  message : String
  raw : String
  cloudId : Option String := none
  tenantId : Option String := none
  fileHash : Option String := none
  threatName : Option String := none
  analysisTime : Option Int := none
deriving DecidableEq

/-- SonicOS dialect selector (`sonicOSVersion: '7' | '8'`). -/
inductive SonicOSVersion where
  | v7 | v8
deriving DecidableEq

/-- JavaScript runtime environment: the clock (`Date.now`), the current year,
one `Math.random`-generated id value, `new Date(string)` parsing (`none` is an
Invalid Date), `JSON.parse` (restricted to object results; `none` is a parse
error) and `JSON.stringify`. -/
structure JsEnv where
  now : Int
  year : Int
  genId : String
  jsDate : String → Option Int
  jsonParse : String → Option J
  stringify : J → String


/-- JavaScript `String.prototype.includes` (case-sensitive). -/
def strIncludes (hay needle : String) : Bool := containsL hay.data needle.data

/-- JavaScript `String.prototype.toLowerCase`. -/
def jsLower (s : String) : String := String.mk (lowL s.data)

/-- JavaScript `String.prototype.toUpperCase` (ASCII). -/
def jsUpper (s : String) : String := String.mk (s.data.map Char.toUpper)

/-- The unchecked TS cast `token.toLowerCase() as LogEntry['action']`.
`.block` is reached only from the fallback pattern's `BLOCK` alternative. -/
def actionCast (s : String) : Action :=
  if s = "allow" then .allow
  else if s = "deny" then .deny
  else if s = "drop" then .drop
  else if s = "reset" then .reset
  else .block

/-- `match[i] ? parseInt(match[i]) : undefined` on an optional capture. -/
def optPort (o : Option String) : Option Int :=
  match o with
  | some s => if s ≠ "" then jsParseInt s else none
  | none => none

/-! ## EnhancedSonicWallLogParser (log-parser-enhanced.ts) -/

namespace EnhancedSonicWallLogParser

/-- mapPriorityToSeverity (line 335). -/
def mapPriorityToSeverity (p : Int) : Severity :=
  if p ≤ 2 then .critical
  else if p ≤ 4 then .high
  else if p ≤ 6 then .medium
  else if p ≤ 7 then .low
  else .info

/-- `mapPriorityToSeverity(parseInt(s))`; a `NaN` priority fails every `<=`
test and lands on `info`. -/
def severityOfPri (p : Option Int) : Severity :=
  match p with
  | some v => mapPriorityToSeverity v
  | none => .info

/-- mapCategoryCode (line 343); a `NaN` code misses the table and lands on
`system`. -/
def mapCategoryCode (p : Option Int) : Category :=
  match p with
  | none => .system
  | some code =>
    if code = 1 then .firewall
    else if code = 2 then .vpn
    else if code = 3 then .ips
    else if code = 4 then .antivirus
    else if code = 5 then .system
    else if code = 6 then .system
    else if code = 256 then .firewall
    else if code = 257 then .firewall
    else if code = 512 then .vpn
    else if code = 768 then .ips
    else if code = 1024 then .antivirus
    else .system

/-- extractAction (line 360). -/
def extractAction (message : String) : Action :=
  let m := jsLower message
  if strIncludes m "allow" || strIncludes m "permit" || strIncludes m "accept" then .allow
  else if strIncludes m "deny" || strIncludes m "block" || strIncludes m "reject" then .deny
  else if strIncludes m "drop" then .drop
  else if strIncludes m "reset" then .reset
  else .deny

/-- normalizeProtocol (line 369); typed `(protocol: string)`, so its
`toUpperCase` call throws on a non-string (handled at the call site). -/
def normalizeProtocol (p : String) : Protocol :=
  let u := jsUpper p
  if u = "TCP" then .tcp
  else if u = "UDP" then .udp
  else if u = "ICMP" then .icmp
  else .other

/-- normalizeSeverity (line 377), on dynamic values. -/
def normalizeSeverity (v : J) : Severity :=
  match v with
  | .n p => mapPriorityToSeverity p
  | _ =>
    let sev := jsLower (jToString v)
    if sev = "critical" || sev = "crit" || sev = "emergency" || sev = "alert" then .critical
    else if sev = "high" || sev = "error" || sev = "err" then .high
    else if sev = "medium" || sev = "med" || sev = "warning" || sev = "warn" then .medium
    else if sev = "low" || sev = "notice" then .low
    else .info

/-- normalizeCategory (line 390). -/
def normalizeCategory (v : J) : Category :=
  let cat := jsLower (jToString v)
  if strIncludes cat "firewall" || strIncludes cat "fw" then .firewall
  else if strIncludes cat "vpn" then .vpn
  else if strIncludes cat "ips" || strIncludes cat "intrusion" then .ips
  else if strIncludes cat "antivirus" || strIncludes cat "av" || strIncludes cat "atp" then .antivirus
  else .system

/-- normalizeAction (line 399). -/
def normalizeAction (v : J) : Action :=
  let act := jsLower (jToString v)
  if strIncludes act "allow" || strIncludes act "permit" || strIncludes act "accept" then .allow
  else if strIncludes act "deny" || strIncludes act "block" || strIncludes act "reject" then .deny
  else if strIncludes act "drop" then .drop
  else if strIncludes act "reset" then .reset
  else .deny

/-- parsePort (line 408). -/
def parsePort (v : J) : Option Int :=
  match v with
  | .n p => some p
  | .s p => jsParseInt p
  | _ => none

/-- parseTimestamp (line 310): tries the SonicWall `time="…"` field, then an
ISO-looking syslog time, then `"<currentYear> <syslogTime>"`, and finally
falls back to the current time — so the result is always a valid date. -/
def parseTimestamp (env : JsEnv) (syslogTime : String) (sonicwallTime : Option String) : Int :=
  let d1 := match sonicwallTime with
    | some st => if st ≠ "" then env.jsDate st else none
    | none => none
  match d1 with
  | some t => t
  | none =>
    let d2 :=
      if strIncludes syslogTime "T" || strIncludes syslogTime "-" then env.jsDate syslogTime
      else none
    match d2 with
    | some t => t
    | none =>
      match env.jsDate (toString env.year ++ " " ++ syslogTime) with
      | some t => t
      | none => env.now

/-- The `Partial<LogEntry> & { raw: string }` argument of createLogEntry.
`timestamp` is doubly optional: the outer `Option` is presence of the field,
the inner one validity of the `Date` object (an Invalid Date is truthy). -/
structure PartialEntry where
  id : Option String := none
  timestamp : Option (Option Int) := none
  severity : Option Severity := none
  category : Option Category := none
  action : Option Action := none
  sourceIp : Option String := none
  sourcePort : Option Int := none
  destIp : Option String := none
  destPort : Option Int := none
  protocol : Option Protocol := none
  rule : Option String := none
  message : Option String := none
  raw : String
  cloudId : Option String := none
  tenantId : Option String := none
  fileHash : Option String := none
  threatName : Option String := none
  analysisTime : Option Int := none

/-- createLogEntry (line 253): fills defaults; `x || d` falsiness of a
present-but-empty string is modelled field by field. -/
def createLogEntry (env : JsEnv) (p : PartialEntry) : LogEntry :=
  { id := match p.id with
      | some s => if s ≠ "" then s else env.genId
      | none => env.genId
    timestamp := match p.timestamp with
      | some t => t
      | none => some env.now
    severity := p.severity.getD .info
    category := p.category.getD .system
    action := p.action.getD (extractAction (p.message.getD ""))
    sourceIp := match p.sourceIp with
      | some s => if s ≠ "" then s else "unknown"
      | none => "unknown"
    sourcePort := p.sourcePort
    destIp := match p.destIp with
      | some s => if s ≠ "" then s else "unknown"
      | none => "unknown"
    destPort := p.destPort
    protocol := p.protocol.getD .other
    rule := p.rule
    message := match p.message with
      | some s => if s ≠ "" then s else "Unknown message"
      | none => "Unknown message"
    raw := p.raw
    cloudId := match p.cloudId with
      | some s => if s ≠ "" then some s else none
      | none => none
    tenantId := match p.tenantId with
      | some s => if s ≠ "" then some s else none
      | none => none
    fileHash := match p.fileHash with
      | some s => if s ≠ "" then some s else none
      | none => none
    threatName := match p.threatName with
      | some s => if s ≠ "" then some s else none
      | none => none
    analysisTime := match p.analysisTime with
      | some t => if t ≠ 0 then some t else none
      | none => none }

/-- createFallbackLogEntry (line 280). -/
def createFallbackLogEntry (env : JsEnv) (rawLine : String) : LogEntry :=
  let ips := reFindAll false fallbackIpRE rawLine
  let actionMatch := reMatch true fallbackActionRE rawLine
  createLogEntry env
    { sourceIp := some ((ips.get? 0).getD "unknown")
      destIp := some ((ips.get? 1).getD "unknown")
      action := some (match actionMatch with
        | some m => actionCast (jsLower ((capsGet m 1).getD ""))
        | none => .deny)
      message := some ("Unparsed log entry: " ++ String.mk (rawLine.data.take 100) ++
        (if rawLine.data.length > 100 then "..." else ""))
      raw := rawLine }

/-- `new Date(v)` on a dynamic JSON field value. -/
def dateOfJ (env : JsEnv) : J → Option Int
  | .s v => env.jsDate v
  | .n v => some v
  | .b true => some 1
  | .b false => some 0
  | .nul => some 0
  | .arr _ => none
  | .obj _ => none
  | .und => none

/-- Flatten a dynamic field for a string-typed LogEntry slot: kept (as its
string form) when truthy, dropped when falsy. -/
def jStrField (v : J) : Option String :=
  if jTruthy v then some (jToString v) else none

/-- parseStructuredLog (line 226).  The only call that can throw on a
malformed object is `normalizeProtocol(logData.protocol || logData.proto)`,
whose `(protocol: string)` parameter receives a non-string (for example
`undefined`) — modelled as the `Except.error` outcome, which the caller's
`catch` turns into a fallback entry. -/
def parseStructuredLog (env : JsEnv) (d : J) : Except Unit LogEntry :=
  match jOr (jGet d "protocol") (jGet d "proto") with
  | .s p =>
    .ok (createLogEntry env
      { id := jStrField (jOr (jGet d "id") (jGet d "log_id"))
        timestamp := some (dateOfJ env
          (jOr (jOr (jGet d "timestamp") (jGet d "time")) (.n env.now)))
        severity := some (normalizeSeverity (jOr (jGet d "severity") (jGet d "priority")))
        category := some (normalizeCategory (jOr (jGet d "category") (jGet d "log_type")))
        action := some (normalizeAction (jOr (jGet d "action") (jGet d "disposition")))
        sourceIp := jStrField (jOr (jOr (jGet d "source_ip") (jGet d "src_ip")) (jGet d "srcIP"))
        sourcePort := parsePort (jOr (jOr (jGet d "source_port") (jGet d "src_port")) (jGet d "srcPort"))
        destIp := jStrField (jOr (jOr (jGet d "dest_ip") (jGet d "dst_ip")) (jGet d "destIP"))
        destPort := parsePort (jOr (jOr (jGet d "dest_port") (jGet d "dst_port")) (jGet d "destPort"))
        protocol := some (normalizeProtocol p)
        rule := jStrField (jOr (jOr (jGet d "rule") (jGet d "rule_name")) (jGet d "policy"))
        message := jStrField (jOr (jOr (jGet d "message") (jGet d "description")) (jGet d "event_description"))
        raw := env.stringify d
        cloudId := jStrField (jGet d "cloud_id")
        tenantId := jStrField (jGet d "tenant_id")
        fileHash := jStrField (jGet d "file_hash")
        threatName := jStrField (jGet d "threat_name")
        analysisTime := match jGet d "analysis_time" with
          | .n v => some v
          | _ => none })
  | _ => .error ()

/-- parseSonicOS7Log (line 71): VPN, then IPS, then standard, then simple,
then the fallback extractor. -/
def parseSonicOS7Log (env : JsEnv) (rawLine : String) : LogEntry :=
  match reMatchA false v7vpnRE rawLine with
  | some m =>
    let g := fun i => (capsGet m i).getD ""
    createLogEntry env
      { timestamp := some (some (parseTimestamp env (g 1) none))
        category := some .vpn
        sourceIp := some (g 3)
        destIp := some (g 4)
        message := some ("VPN " ++ g 5 ++ " for user " ++ g 2 ++ ": " ++ g 6)
        action := some (if jsLower (g 5) = "success" then .allow else .deny)
        raw := rawLine }
  | none =>
  match reMatchA false v7ipsRE rawLine with
  | some m =>
    let g := fun i => (capsGet m i).getD ""
    createLogEntry env
      { timestamp := some (some (parseTimestamp env (g 1) none))
        severity := some (severityOfPri (jsParseInt (g 2)))
        category := some .ips
        sourceIp := some (g 3)
        sourcePort := optPort (capsGet m 4)
        destIp := some (g 5)
        destPort := optPort (capsGet m 6)
        message := some ("IPS signature " ++ g 7 ++ ": " ++ g 8)
        action := some .drop
        raw := rawLine }
  | none =>
  match reMatchA false v7standardRE rawLine with
  | some m =>
    let g := fun i => (capsGet m i).getD ""
    createLogEntry env
      { timestamp := some (some (parseTimestamp env (g 1) (some (g 5))))
        id := some (g 3)
        severity := some (severityOfPri (jsParseInt (g 7)))
        category := some (mapCategoryCode (jsParseInt (g 8)))
        message := some (g 9)
        sourceIp := some (g 10)
        sourcePort := optPort (capsGet m 11)
        destIp := some (g 12)
        destPort := optPort (capsGet m 13)
        protocol := some (normalizeProtocol (g 14))
        rule := capsGet m 15
        raw := rawLine }
  | none =>
  match reMatch true simpleRE rawLine with
  | some m =>
    let g := fun i => (capsGet m i).getD ""
    createLogEntry env
      { timestamp := some (env.jsDate (g 1))
        action := some (actionCast (jsLower (g 2)))
        sourceIp := some (g 3)
        destIp := some (g 4)
        protocol := some (normalizeProtocol (g 5))
        sourcePort := optPort (capsGet m 6)
        destPort := optPort (capsGet m 7)
        message := some ("Traffic " ++ jsLower (g 2) ++ "ed from " ++ g 3 ++ " to " ++ g 4)
        raw := rawLine }
  | none => createFallbackLogEntry env rawLine

/-- parseSonicOS8Log (line 146): Capture ATP, then ATP, then enhanced, then
standard, then the fallback extractor. -/
def parseSonicOS8Log (env : JsEnv) (rawLine : String) : LogEntry :=
  match reMatchA false v8captureAtpRE rawLine with
  | some m =>
    let g := fun i => (capsGet m i).getD ""
    createLogEntry env
      { timestamp := some (env.jsDate (g 1))
        category := some .antivirus
        severity := some (if g 7 = "malicious" then .critical else .medium)
        sourceIp := some (g 5)
        destIp := some (g 6)
        action := some (if g 7 = "clean" then .allow else .deny)
        message := some ("Capture ATP analysis: " ++ g 4 ++ " (" ++ g 3 ++ ") - " ++ g 7)
        raw := rawLine }
  | none =>
  match reMatchA false v8atpRE rawLine with
  | some m =>
    let g := fun i => (capsGet m i).getD ""
    createLogEntry env
      { timestamp := some (env.jsDate (g 1))
        category := some .antivirus
        severity := some (normalizeSeverity (.s (g 3)))
        sourceIp := some (g 4)
        destIp := some (g 5)
        action := some (if g 7 = "allow" then .allow else .deny)
        message := some ("ATP " ++ g 2 ++ " threat: " ++ g 8 ++ " (verdict: " ++ g 7 ++ ")")
        raw := rawLine }
  | none =>
  match reMatchA false v8enhancedRE rawLine with
  | some m =>
    let g := fun i => (capsGet m i).getD ""
    createLogEntry env
      { timestamp := some (env.jsDate (g 1))
        id := some (g 3)
        severity := some (severityOfPri (jsParseInt (g 7)))
        category := some (mapCategoryCode (jsParseInt (g 8)))
        message := some (g 9)
        sourceIp := some (g 10)
        sourcePort := optPort (capsGet m 11)
        destIp := some (g 12)
        destPort := optPort (capsGet m 13)
        protocol := some (normalizeProtocol (g 14))
        rule := capsGet m 15
        cloudId := capsGet m 16
        tenantId := capsGet m 17
        raw := rawLine }
  | none =>
  match reMatch true simpleRE rawLine with
  | some m =>
    let g := fun i => (capsGet m i).getD ""
    createLogEntry env
      { timestamp := some (env.jsDate (g 1))
        action := some (actionCast (jsLower (g 2)))
        sourceIp := some (g 3)
        destIp := some (g 4)
        protocol := some (normalizeProtocol (g 5))
        sourcePort := optPort (capsGet m 6)
        destPort := optPort (capsGet m 7)
        message := some ("Traffic " ++ jsLower (g 2) ++ "ed from " ++ g 3 ++ " to " ++ g 4)
        raw := rawLine }
  | none => createFallbackLogEntry env rawLine

/-- parseLogLine (line 41): trim; blank lines yield `null`; inputs starting
with a brace try JSON first.  Both `JSON.parse` and `parseStructuredLog` sit
inside the inner try (lines 48–54), so an exception from either is swallowed
by the inner catch and execution falls through to the version-specific syslog
chain on the trimmed line.  The outer catch's `createFallbackLogEntry(rawLine)`
is unreachable: past the inner try nothing on the path throws. -/
def parseLogLine (env : JsEnv) (ver : SonicOSVersion) (rawLine : String) : Option LogEntry :=
  let cleanLine := jsTrim rawLine
  if cleanLine = "" then none
  else
    let viaSyslog : LogEntry :=
      match ver with
      | .v8 => parseSonicOS8Log env cleanLine
      | .v7 => parseSonicOS7Log env cleanLine
    match cleanLine.data with
    | c :: _ =>
      if c = Char.ofNat 123 then
        match env.jsonParse cleanLine with
        | some obj =>
          match parseStructuredLog env obj with
          | .ok e => some e
          | .error _ => some viaSyslog
        | none => some viaSyslog
      else some viaSyslog
    | [] => some viaSyslog

/-- The sort comparator `(a, b) => b.timestamp.getTime() - a.timestamp.getTime()`.
`getTime()` of an Invalid Date is `NaN`, and the ECMAScript sort maps a `NaN`
comparator result to `+0`. -/
def jsCmpEntries (a b : LogEntry) : Int :=
  match a.timestamp, b.timestamp with
  | some ta, some tb => tb - ta
  | _, _ => 0

/-- Stable insertion used to model `Array.prototype.sort` (which is required
to be stable) with the comparator above. -/
def insertByTs (x : LogEntry) : List LogEntry → List LogEntry
  | [] => [x]
  | y :: ys => if jsCmpEntries x y ≤ 0 then x :: y :: ys else y :: insertByTs x ys

/-- Stable sort by the descending-timestamp comparator. -/
def sortByTsDesc : List LogEntry → List LogEntry
  | [] => []
  | x :: xs => insertByTs x (sortByTsDesc xs)

/-- parseLogs (line 300): map, drop `null`s, sort descending by timestamp. -/
def parseLogs (env : JsEnv) (ver : SonicOSVersion) (rawLogs : List String) : List LogEntry :=
  sortByTsDesc (rawLogs.filterMap (parseLogLine env ver))

end EnhancedSonicWallLogParser

/-! ## SonicWallLogParser (log-parser.ts) — the basic parser the API client uses -/

namespace SonicWallLogParser

/-- mapPriorityToSeverity (log-parser.ts line 89) — same table as the
enhanced parser. -/
def mapPriorityToSeverity (p : Option Int) : Severity :=
  EnhancedSonicWallLogParser.severityOfPri p

/-- mapCategoryCode (log-parser.ts line 97): only codes 1–5 are mapped. -/
def mapCategoryCode (p : Option Int) : Category :=
  match p with
  | none => .system
  | some code =>
    if code = 1 then .firewall
    else if code = 2 then .vpn
    else if code = 3 then .ips
    else if code = 4 then .antivirus
    else if code = 5 then .system
    else .system

/-- extractAction (log-parser.ts line 108): note the smaller keyword sets
(no `permit`, no `reject`) compared to the enhanced parser. -/
def extractAction (message : String) : Action :=
  let m := jsLower message
  if strIncludes m "allow" || strIncludes m "accept" then .allow
  else if strIncludes m "deny" || strIncludes m "block" then .deny
  else if strIncludes m "drop" then .drop
  else if strIncludes m "reset" then .reset
  else .deny

/-- normalizeProtocol (log-parser.ts line 117) — same as the enhanced one. -/
def normalizeProtocol (p : String) : Protocol :=
  EnhancedSonicWallLogParser.normalizeProtocol p

/-- parseTimestamp (log-parser.ts line 78): no validity checks — the result
may be an Invalid Date. -/
def parseTimestamp (env : JsEnv) (syslogTime : String) (sonicwallTime : Option String) :
    Option Int :=
  match sonicwallTime with
  | some st =>
    if st ≠ "" then env.jsDate st
    else env.jsDate (toString env.year ++ " " ++ syslogTime)
  | none => env.jsDate (toString env.year ++ " " ++ syslogTime)

/-- parseAlternativeFormat (log-parser.ts line 55); returns `null` when the
alternative pattern does not match — such lines are dropped. -/
def parseAlternativeFormat (env : JsEnv) (rawLine : String) : Option LogEntry :=
  match reMatch true basicSimpleRE rawLine with
  | none => none
  | some m =>
    let g := fun i => (capsGet m i).getD ""
    some
      { id := env.genId
        timestamp := env.jsDate (g 1)
        severity := if g 2 = "DENY" || g 2 = "DROP" then .medium else .info
        category := .firewall
        action := actionCast (jsLower (g 2))
        sourceIp := g 3
        sourcePort := none
        destIp := g 4
        destPort := none
        protocol := normalizeProtocol (g 5)
        rule := none
        message := "Traffic " ++ jsLower (g 2) ++ "ed from " ++ g 3 ++ " to " ++ g 4
        raw := rawLine }

/-- parseLogLine (log-parser.ts line 4). -/
def parseLogLine (env : JsEnv) (rawLine : String) : Option LogEntry :=
  match reMatchA false basicLogRE rawLine with
  | none => parseAlternativeFormat env rawLine
  | some m =>
    let g := fun i => (capsGet m i).getD ""
    some
      { id := if g 2 ≠ "" then g 2 else env.genId
        timestamp := parseTimestamp env (g 1) (some (g 3))
        severity := mapPriorityToSeverity (jsParseInt (g 5))
        category := mapCategoryCode (jsParseInt (g 6))
        action := extractAction (g 7)
        sourceIp := if g 8 ≠ "" then g 8 else "unknown"
        sourcePort := optPort (capsGet m 9)
        destIp := if g 10 ≠ "" then g 10 else "unknown"
        destPort := optPort (capsGet m 11)
        protocol := normalizeProtocol (g 12)
        rule := capsGet m 13
        message := if g 7 ≠ "" then g 7 else "Unknown message"
        raw := rawLine }

/-- parseLogs (log-parser.ts line 129): map and drop `null`s — no sorting. -/
def parseLogs (env : JsEnv) (rawLogs : List String) : List LogEntry :=
  rawLogs.filterMap (parseLogLine env)

end SonicWallLogParser

/-! ## MemoryCache (cache.ts) -/

namespace MemoryCache

/-- CacheEntry (cache.ts line 1). -/
structure CacheEntry (α : Type) where
  data : α
  expiry : Int
deriving DecidableEq

/-- The `Map` content, insertion-ordered. -/
def Store (α : Type) : Type := List (String × CacheEntry α)

/-- `Map.prototype.get`. -/
def lookupC {α : Type} (key : String) (c : Store α) : Option (CacheEntry α) :=
  ((c.find? (fun p => p.1 == key)).map Prod.snd)

/-- `Map.prototype.set`: replace in place or append. -/
def storePut {α : Type} (key : String) (e : CacheEntry α) : Store α → Store α
  | [] => [(key, e)]
  | p :: ps => if p.1 == key then (key, e) :: ps else p :: storePut key e ps

/-- `Map.prototype.delete`. -/
def storeDel {α : Type} (key : String) : Store α → Store α
  | [] => []
  | p :: ps => if p.1 == key then ps else p :: storeDel key ps

/-- set (cache.ts line 17): `ttlSeconds ? ttlSeconds * 1000 : defaultTtlMs`
(so a `0`/absent TTL falls back to the default), `expiry = Date.now() + ttlMs`. -/
def set {α : Type} (c : Store α) (now : Int) (key : String) (v : α)
    (ttlSeconds : Option Int) (defaultTtlMs : Int) : Store α :=
  let ttlMs := match ttlSeconds with
    | some t => if t ≠ 0 then t * 1000 else defaultTtlMs
    | none => defaultTtlMs
  storePut key { data := v, expiry := now + ttlMs } c

/-- get (cache.ts line 27): a present entry is returned unless
`Date.now() > entry.expiry`, in which case it is deleted and the call
reports a miss.  Returns the result and the updated store. -/
def get {α : Type} (c : Store α) (now : Int) (key : String) : Option α × Store α :=
  match lookupC key c with
  | none => (none, c)
  | some e =>
    if now > e.expiry then (none, storeDel key c)
    else (some e.data, c)

end MemoryCache

/-! ## ThreatInfo / SystemStats (types.ts) and the enhanced API client -/

inductive ThreatType where
  | malware | intrusion | botnet | spam | suspicious
deriving DecidableEq

/-- types.ts `ThreatInfo`. -/
structure ThreatInfo where
  id : String
  timestamp : Option Int
  severity : Severity
  type : ThreatType
  sourceIp : String
  destIp : String
  description : String
  action : String
  blocked : Bool
deriving DecidableEq

structure IpCount where
  ip : J
  count : J

structure PortCount where
  port : J
  protocol : J
  count : J

structure TypeCount where
  type : J
  count : J

/-- types.ts `SystemStats`; scalar fields keep their dynamic (`J`) values
because `parseSystemStats` copies whatever JSON value the upstream sent. -/
structure SystemStats where
  totalConnections : J
  blockedConnections : J
  allowedConnections : J
  topBlockedIps : List IpCount
  topAllowedIps : List IpCount
  portSummary : List PortCount
  threatSummary : List TypeCount

/-- types.ts `LogQueryParams`.  Time fields are `Date` objects: the outer
`Option` is field presence, the inner one validity (`some none` is an
Invalid Date supplied by the caller). -/
structure LogQueryParams where
  startTime : Option (Option Int) := none
  endTime : Option (Option Int) := none
  logType : Option String := none
  severity : Option (List String) := none
  sourceIp : Option String := none
  destIp : Option String := none
  port : Option Int := none
  action : Option String := none
  limit : Option Int := none
  offset : Option Int := none

/-- String form of a severity (as stored in `LogEntry.severity`). -/
def severityStr : Severity → String
  | .critical => "critical"
  | .high => "high"
  | .medium => "medium"
  | .low => "low"
  | .info => "info"

/-- String form of an action. -/
def actionStr : Action → String
  | .allow => "allow"
  | .deny => "deny"
  | .drop => "drop"
  | .reset => "reset"
  | .block => "block"

/-- `Array.prototype.slice(0, n)` including the negative-index case. -/
def slice0 {β : Type} (l : List β) (n : Int) : List β :=
  if 0 ≤ n then l.take n.toNat
  else l.take (l.length - min l.length (-n).toNat)

/-- Strict `=== false`. -/
def jStrictEqFalse : J → Bool
  | .b false => true
  | _ => false

/-- Strict `=== "s"`. -/
def jStrictEqStr (sv : String) : J → Bool
  | .s x => x = sv
  | _ => false

def jIsArr : J → Bool
  | .arr _ => true
  | _ => false

def jIsStr : J → Bool
  | .s _ => true
  | _ => false

/-- `v.forEach` / `v.map` requires an array; anything else throws. -/
def jArrE : J → Except Unit (List J)
  | .arr xs => .ok xs
  | _ => .error ()

/-- Splitting on a (non-empty) separator substring, for the source's
`split('\\n')` — which, written in a TS string literal, splits on the
two-character sequence backslash-`n`, not on newlines (source quirk kept). -/
def splitSubAux (sep : List Char) : Nat → List Char → List Char → List String
  | 0, acc, rest => [String.mk (acc.reverse ++ rest)]
  | fuel + 1, acc, cs =>
    match cs with
    | [] => [String.mk acc.reverse]
    | c :: t =>
      if leadEq sep cs then
        String.mk acc.reverse :: splitSubAux sep fuel [] (cs.drop sep.length)
      else splitSubAux sep fuel (c :: acc) t

/-- `s.split(sep)`. -/
def jsSplit (s sep : String) : List String :=
  splitSubAux sep.data (s.data.length + 1) [] s.data

namespace EnhancedSonicWallApiClient

/-- Upstream answer to one request issued on the interceptor-equipped axios
instance (`retryAfter` is the `retry-after` response header). -/
inductive ReqAns where
  | http (status : Nat) (body : J) (retryAfter : Option String)
  | netErr

/-- Answer to one raw `axios.post` authentication call. -/
inductive AuthAns where
  | http (status : Nat) (body : J)
  | netErr

/-- Values the shared `MemoryCache<any>` can hold. -/
inductive CVal where
  | logs (l : List LogEntry)
  | threats (l : List ThreatInfo)
  | stats (s : SystemStats)

/-- Coarse classification of thrown `Error`s (their message strings do not
affect any claim). -/
inductive JsError where
  | auth
  | httpFail
  | endpointMissing
  | invalidDate
  | typeErr
  | fuelOut
  | rejected (status : Option Nat)
deriving DecidableEq

/-- Client environment: the JavaScript runtime plus the upstream appliance's
scripted behaviour (answers indexed by call count) and `toISOString`. -/
structure ClientEnv where
  js : JsEnv
  version : SonicOSVersion
  reqAns : Nat → ReqAns
  authAns : Nat → AuthAns
  isoStr : Int → String

/-- Mutable client state.  `tokenExpiry`'s outer `Option` is field presence,
the inner one `Date` validity.  `reqCount`/`authCount` index the upstream
scripts; `waits` records rate-limit sleeps (milliseconds). -/
structure CSt where
  authToken : Option String := none
  tokenExpiry : Option (Option Int) := none
  sessionId : Option String := none
  cache : MemoryCache.Store CVal := []
  reqCount : Nat := 0
  authCount : Nat := 0
  waits : List Int := []

/-- getEndpoints / SONICOS_7_ENDPOINTS / SONICOS_8_ENDPOINTS
(api-endpoints.ts), restricted to the keys this client dereferences. -/
def getEndpoint (ver : SonicOSVersion) (key : String) : Except JsError String :=
  match ver, key with
  | .v7, "auth" => .ok "/api/sonicos/auth"
  | .v8, "auth" => .ok "/api/sonicos/v8/auth"
  | .v7, "logs" => .ok "/api/sonicos/reporting/log"
  | .v8, "logs" => .ok "/api/sonicos/v8/reporting/log"
  | .v7, "threats" => .ok "/api/sonicos/reporting/security-services"
  | .v8, "threats" => .ok "/api/sonicos/v8/reporting/security-services"
  | .v7, "dashboard" => .ok "/api/sonicos/reporting/dashboard"
  | .v8, "dashboard" => .ok "/api/sonicos/v8/reporting/dashboard"
  | .v7, "statistics" => .ok "/api/sonicos/reporting/statistics"
  | .v8, "statistics" => .ok "/api/sonicos/v8/reporting/statistics"
  | _, _ => .error .endpointMissing

/-- authenticate (part_008 line 145): raw `axios.post` with the default
`validateStatus` (2xx resolves); on HTTP 200 with a truthy body the token /
session id / expiry fields are stored, a missing token throws; every other
outcome is rethrown as an `Error` by the catch's mapping. -/
def authenticate (env : ClientEnv) (st0 : CSt) : Except JsError Unit × CSt :=
  let i := st0.authCount
  let st := { st0 with authCount := i + 1 }
  match env.authAns i with
  | .netErr => (.error .auth, st)
  | .http status d =>
    if 200 ≤ status ∧ status < 300 then
      if status = 200 ∧ jTruthy d then
        let tokJ := jOr (jOr (jGet d "token") (jGet d "access_token")) (jGet d "auth_token")
        let tok := if jTruthy tokJ then some (jToString tokJ) else none
        let sess :=
          if env.version = .v8 then
            (let sJ := jOr (jGet d "session_id") (jGet d "sessionId")
             if jTruthy sJ then some (jToString sJ) else none)
          else st.sessionId
        let expJ := jOr (jOr (jGet d "expires_in") (jGet d "expiry")) (.n 3600)
        let expiry : Option Int := (jToNum expJ).map (fun v => env.js.now + v * 1000)
        let st' := { st with authToken := tok, sessionId := sess, tokenExpiry := some expiry }
        match tok with
        | some _ => (.ok (), st')
        | none => (.error .auth, st')
      else (.error .auth, st)
    else (.error .auth, st)

/-- ensureAuthenticated (line 137): the stored credential counts as valid only
when both fields are truthy and `new Date() < tokenExpiry` (false for an
Invalid Date). -/
def ensureAuthenticated (env : ClientEnv) (st : CSt) : Except JsError Unit × CSt :=
  let valid :=
    st.authToken.isSome &&
      (match st.tokenExpiry with
       | some (some exp) => env.js.now < exp
       | _ => false)
  if valid then (.ok (), st) else authenticate env st

/-- One request through the client's axios instance with both interceptors
(lines 70–120).  `validateStatus: status < 500` resolves every answer below
500, so only network errors and 5xx answers reach the error handler of the
response interceptor; its 401 branch (discard credential, re-authenticate,
retry once guarded by `_retry`) and its 429 branch (sleep `retry-after`
seconds and retry, unguarded) are modelled faithfully.  `retried` is the
`_retry` flag; the fuel only bounds the 429 branch's unguarded recursion. -/
def axiosReq (env : ClientEnv) : Nat → Bool → CSt → Except JsError (Nat × J) × CSt
  | 0, _, st => (.error .fuelOut, st)
  | fuel + 1, retried, st =>
    match ensureAuthenticated env st with
    | (.error e, st1) => (.error e, st1)
    | (.ok _, st1) =>
      let i := st1.reqCount
      let st2 := { st1 with reqCount := i + 1 }
      match env.reqAns i with
      | .netErr => (.error (.rejected none), st2)
      | .http status body retryAfter =>
        if status < 500 then (.ok (status, body), st2)
        else
          if status = 401 ∧ retried = false then
            let st3 := { st2 with authToken := none, tokenExpiry := none, sessionId := none }
            match authenticate env st3 with
            | (.error e, st4) => (.error e, st4)
            | (.ok _, st4) => axiosReq env fuel true st4
          else if status = 429 then
            let ra : Int := match retryAfter with
              | some hd => if hd ≠ "" then (jsParseInt hd).getD 0 else 5
              | none => 5
            let st3 := { st2 with waits := st2.waits ++ [ra * 1000] }
            axiosReq env fuel retried st3
          else (.error (.rejected (some status)), st2)

/-- Fuel for one logical call through the interceptors. -/
def reqFuel : Nat := 1000

/-- `String(v)` flattening with a default for `v || 'dflt'` positions. -/
def strDef (v : J) (dflt : String) : String :=
  if jTruthy v then jToString v else dflt

/-- The client's own normalizeCategory (line 754): unlike the enhanced
parser's, it has no `atp` keyword. -/
def normalizeCategory (v : J) : Category :=
  let cat := jsLower (jToString v)
  if strIncludes cat "firewall" || strIncludes cat "fw" then .firewall
  else if strIncludes cat "vpn" then .vpn
  else if strIncludes cat "ips" || strIncludes cat "intrusion" then .ips
  else if strIncludes cat "antivirus" || strIncludes cat "av" then .antivirus
  else .system

/-- The client's normalizeProtocol (line 772) takes `any` and coerces with
`String(...)`, so it never throws. -/
def normalizeProtocolAny (v : J) : Protocol :=
  let u := jsUpper (jToString v)
  if u = "TCP" then .tcp
  else if u = "UDP" then .udp
  else if u = "ICMP" then .icmp
  else .other

/-- normalizeThreatSeverity (line 739); the default is `low`, not `info`. -/
def normalizeThreatSeverity (v : J) : Severity :=
  match v with
  | .n p =>
    if p ≤ 2 then .critical
    else if p ≤ 4 then .high
    else if p ≤ 6 then .medium
    else .low
  | _ =>
    let sev := jsLower (jToString v)
    if sev = "critical" || sev = "crit" || sev = "emergency" || sev = "alert" then .critical
    else if sev = "high" || sev = "error" || sev = "err" then .high
    else if sev = "medium" || sev = "med" || sev = "warning" || sev = "warn" then .medium
    else .low

/-- normalizeThreatType (line 780). -/
def normalizeThreatType (v : J) : ThreatType :=
  let t := jsLower (jToString v)
  if strIncludes t "malware" || strIncludes t "virus" then .malware
  else if strIncludes t "intrusion" || strIncludes t "ips" then .intrusion
  else if strIncludes t "botnet" || strIncludes t "bot" then .botnet
  else if strIncludes t "spam" then .spam
  else .suspicious

/-- The client's parseStructuredLog (line 566). -/
def parseStructuredLog (env : ClientEnv) (log : J) : LogEntry :=
  { id := strDef (jOr (jGet log "id") (jGet log "log_id")) env.js.genId
    timestamp := EnhancedSonicWallLogParser.dateOfJ env.js
      (jOr (jOr (jGet log "timestamp") (jGet log "time")) (.n env.js.now))
    severity := EnhancedSonicWallLogParser.normalizeSeverity
      (jOr (jGet log "severity") (jGet log "priority"))
    category := normalizeCategory (jOr (jGet log "category") (jGet log "log_type"))
    action := EnhancedSonicWallLogParser.normalizeAction
      (jOr (jGet log "action") (jGet log "disposition"))
    sourceIp := strDef (jOr (jOr (jGet log "source_ip") (jGet log "src_ip")) (jGet log "srcIP"))
      "unknown"
    sourcePort := EnhancedSonicWallLogParser.parsePort
      (jOr (jOr (jGet log "source_port") (jGet log "src_port")) (jGet log "srcPort"))
    destIp := strDef (jOr (jOr (jGet log "dest_ip") (jGet log "dst_ip")) (jGet log "destIP"))
      "unknown"
    destPort := EnhancedSonicWallLogParser.parsePort
      (jOr (jOr (jGet log "dest_port") (jGet log "dst_port")) (jGet log "destPort"))
    protocol := normalizeProtocolAny (jOr (jGet log "protocol") (jGet log "proto"))
    rule := (let v := jOr (jOr (jGet log "rule") (jGet log "rule_name")) (jGet log "policy")
             if jTruthy v then some (jToString v) else none)
    message := strDef (jOr (jOr (jGet log "message") (jGet log "description"))
      (jGet log "event_description")) "Unknown message"
    raw := env.js.stringify log }

/-- parseStructuredThreat (line 584).  The `blocked` flag is
`threat.blocked !== false && threat.action !== 'allow'` with strict
comparisons. -/
def parseStructuredThreat (env : ClientEnv) (threat : J) : ThreatInfo :=
  { id := strDef (jOr (jGet threat "id") (jGet threat "threat_id")) env.js.genId
    timestamp := EnhancedSonicWallLogParser.dateOfJ env.js
      (jOr (jOr (jGet threat "timestamp") (jGet threat "detection_time")) (.n env.js.now))
    severity := normalizeThreatSeverity (jOr (jGet threat "severity") (jGet threat "priority"))
    type := normalizeThreatType (jOr (jGet threat "type") (jGet threat "threat_type"))
    sourceIp := strDef (jOr (jGet threat "source_ip") (jGet threat "src_ip")) "unknown"
    destIp := strDef (jOr (jGet threat "dest_ip") (jGet threat "dst_ip")) "unknown"
    description := strDef (jOr (jGet threat "description") (jGet threat "threat_description"))
      "Unknown threat"
    action := strDef (jOr (jGet threat "action") (jGet threat "disposition")) "blocked"
    blocked := !(jStrictEqFalse (jGet threat "blocked")) &&
      !(jStrictEqStr "allow" (jGet threat "action")) }

/-- parseThreatsFromStats (line 598). -/
def parseThreatsFromStats (env : ClientEnv) (stats : J) : Except JsError (List ThreatInfo) :=
  let ia := jGet stats "intrusion_attempts"
  if jTruthy ia then
    match jArrE ia with
    | .error _ => .error .typeErr
    | .ok xs =>
      .ok (xs.map (fun attempt =>
        { id := env.js.genId
          timestamp := some env.js.now
          severity := .high
          type := .intrusion
          sourceIp := strDef (jGet attempt "source_ip") "unknown"
          destIp := strDef (jGet attempt "target_ip") "unknown"
          description := strDef (jGet attempt "signature") "Intrusion attempt"
          action := "blocked"
          blocked := true }))
  else .ok []

/-- parseThreatsFromSecurityServices (line 621): three sections, each guarded
by `services.X && services.X.Y` and iterated with `forEach` (which throws on
a non-array). -/
def parseThreatsFromSecurityServices (env : ClientEnv) (services : J) :
    Except JsError (List ThreatInfo) :=
  let ga := jGet services "gateway_antivirus"
  let step1 : Except JsError (List ThreatInfo) :=
    if jTruthy ga && jTruthy (jGet ga "detections") then
      match jArrE (jGet ga "detections") with
      | .error _ => .error .typeErr
      | .ok xs =>
        .ok (xs.map (fun d =>
          { id := env.js.genId
            timestamp := EnhancedSonicWallLogParser.dateOfJ env.js
              (jOr (jGet d "timestamp") (.n env.js.now))
            severity := normalizeThreatSeverity (jOr (jGet d "severity") (.s "high"))
            type := .malware
            sourceIp := strDef (jOr (jGet d "source_ip") (jGet d "client_ip")) "unknown"
            destIp := strDef (jOr (jGet d "dest_ip") (jGet d "server_ip")) "unknown"
            description := strDef (jOr (jGet d "virus_name") (jGet d "malware_name"))
              "Malware detected"
            action := strDef (jGet d "action") "quarantined"
            blocked := !(jStrictEqFalse (jGet d "blocked")) }))
    else .ok []
  match step1 with
  | .error e => .error e
  | .ok t1 =>
    let ip := jGet services "intrusion_prevention"
    let step2 : Except JsError (List ThreatInfo) :=
      if jTruthy ip && jTruthy (jGet ip "events") then
        match jArrE (jGet ip "events") with
        | .error _ => .error .typeErr
        | .ok xs =>
          .ok (xs.map (fun e =>
            { id := env.js.genId
              timestamp := EnhancedSonicWallLogParser.dateOfJ env.js
                (jOr (jGet e "timestamp") (.n env.js.now))
              severity := normalizeThreatSeverity (jOr (jGet e "severity") (.s "high"))
              type := .intrusion
              sourceIp := strDef (jOr (jGet e "source_ip") (jGet e "attacker_ip")) "unknown"
              destIp := strDef (jOr (jGet e "dest_ip") (jGet e "victim_ip")) "unknown"
              description := strDef (jOr (jGet e "signature") (jGet e "attack_type"))
                "Intrusion attempt detected"
              action := strDef (jGet e "action") "blocked"
              blocked := !(jStrictEqFalse (jGet e "blocked")) }))
      else .ok []
    match step2 with
    | .error e => .error e
    | .ok t2 =>
      let asw := jGet services "anti_spyware"
      let step3 : Except JsError (List ThreatInfo) :=
        if jTruthy asw && jTruthy (jGet asw "detections") then
          match jArrE (jGet asw "detections") with
          | .error _ => .error .typeErr
          | .ok xs =>
            .ok (xs.map (fun d =>
              { id := env.js.genId
                timestamp := EnhancedSonicWallLogParser.dateOfJ env.js
                  (jOr (jGet d "timestamp") (.n env.js.now))
                severity := normalizeThreatSeverity (jOr (jGet d "severity") (.s "medium"))
                type := .suspicious
                sourceIp := strDef (jGet d "source_ip") "unknown"
                destIp := strDef (jGet d "dest_ip") "unknown"
                description := strDef (jOr (jGet d "spyware_name") (jGet d "threat_name"))
                  "Spyware detected"
                action := strDef (jGet d "action") "blocked"
                blocked := !(jStrictEqFalse (jGet d "blocked")) }))
        else .ok []
      match step3 with
      | .error e => .error e
      | .ok t3 => .ok (t1 ++ t2 ++ t3)

/-- parseIpList (line 688). -/
def parseIpList (ipData : J) : List IpCount :=
  match ipData with
  | .arr xs => xs.map (fun item =>
      { ip := jOr (jGet item "ip") (jGet item "address")
        count := jOr (jOr (jGet item "count") (jGet item "connections")) (.n 0) })
  | _ => []

/-- parsePortSummary (line 699). -/
def parsePortSummary (portData : J) : List PortCount :=
  match portData with
  | .arr xs => xs.map (fun item =>
      { port := jOr (jGet item "port") (.n 0)
        protocol := jOr (jGet item "protocol") (.s "TCP")
        count := jOr (jOr (jGet item "count") (jGet item "connections")) (.n 0) })
  | _ => []

/-- parseThreatSummary (line 711). -/
def parseThreatSummary (threatData : J) : List TypeCount :=
  match threatData with
  | .arr xs => xs.map (fun item =>
      { type := jOr (jOr (jGet item "type") (jGet item "category")) (.s "unknown")
        count := jOr (jOr (jGet item "count") (jGet item "detections")) (.n 0) })
  | _ => []

/-- parseSystemStats (line 676). -/
def parseSystemStats (data : J) : SystemStats :=
  { totalConnections := jOr (jOr (jGet data "total_connections") (jGet data "connection_count")) (.n 0)
    blockedConnections := jOr (jOr (jGet data "blocked_connections") (jGet data "denied_connections")) (.n 0)
    allowedConnections := jOr (jOr (jGet data "allowed_connections") (jGet data "permitted_connections")) (.n 0)
    topBlockedIps := parseIpList (jOr (jGet data "top_blocked_ips") (jGet data "blocked_sources"))
    topAllowedIps := parseIpList (jOr (jGet data "top_allowed_ips") (jGet data "active_sources"))
    portSummary := parsePortSummary (jOr (jGet data "port_summary") (jGet data "service_summary"))
    threatSummary := parseThreatSummary (jOr (jGet data "threat_summary") (jGet data "security_events")) }

/-- filterLogs (line 798); each guard mirrors the source's truthiness checks
(`0`, `''` and absent values skip their filter; `limit` uses `slice`). -/
def filterLogs (logs : List LogEntry) (p : LogQueryParams) : List LogEntry :=
  let f0 := logs
  let f1 := match p.sourceIp with
    | some ip => if ip ≠ "" then f0.filter (fun l => l.sourceIp == ip) else f0
    | none => f0
  let f2 := match p.destIp with
    | some ip => if ip ≠ "" then f1.filter (fun l => l.destIp == ip) else f1
    | none => f1
  let f3 := match p.port with
    | some pt => if pt ≠ 0 then
        f2.filter (fun l => l.sourcePort == some pt || l.destPort == some pt)
      else f2
    | none => f2
  let f4 := match p.action with
    | some a => if a ≠ "" ∧ a ≠ "all" then f3.filter (fun l => actionStr l.action == a) else f3
    | none => f3
  let f5 := match p.severity with
    | some sevs => if sevs.length > 0 then
        f4.filter (fun l => sevs.contains (severityStr l.severity))
      else f4
    | none => f4
  match p.limit with
  | some lim => if lim ≠ 0 then slice0 f5 lim else f5
  | none => f5

/-- generateSampleLogs (line 831) before its filterLogs call. -/
def sampleLogs (env : ClientEnv) : List LogEntry :=
  [ { id := "log1"
      timestamp := some (env.js.now - 3600000)
      severity := .high
      category := .firewall
      action := .deny
      sourceIp := "192.168.1.100"
      sourcePort := some 54321
      destIp := "8.8.8.8"
      destPort := some 53
      protocol := .udp
      rule := some "Default Deny"
      message := "Connection blocked by firewall rule"
      raw := "Sample raw log entry 1" },
    { id := "log2"
      timestamp := some (env.js.now - 1800000)
      severity := .medium
      category := .ips
      action := .drop
      sourceIp := "203.0.113.10"
      sourcePort := some 80
      destIp := "192.168.1.50"
      destPort := some 22
      protocol := .tcp
      rule := some "IPS Rule 101"
      message := "Potential SSH brute force attack detected"
      raw := "Sample raw log entry 2" } ]

/-- generateSampleLogs (line 831). -/
def generateSampleLogs (env : ClientEnv) (params : LogQueryParams) : List LogEntry :=
  filterLogs (sampleLogs env) params

/-- generateSampleThreats (line 868). -/
def generateSampleThreats (env : ClientEnv) : List ThreatInfo :=
  [ { id := "threat1"
      timestamp := some (env.js.now - 900000)
      severity := .critical
      type := .malware
      sourceIp := "198.51.100.5"
      destIp := "192.168.1.25"
      description := "Trojan.Win32.Generic detected in network traffic"
      action := "quarantined"
      blocked := true },
    { id := "threat2"
      timestamp := some (env.js.now - 600000)
      severity := .high
      type := .intrusion
      sourceIp := "203.0.113.20"
      destIp := "192.168.1.10"
      description := "SQL injection attempt detected"
      action := "blocked"
      blocked := true } ]

/-- Deterministic serialization of the query parameters, standing for the
source's `JSON.stringify(params)` cache-key construction. -/
def paramsKey (env : ClientEnv) (p : LogQueryParams) : String :=
  let dStr : Option (Option Int) → String := fun d =>
    match d with
    | none => "_"
    | some none => "invalid"
    | some (some t) => env.isoStr t
  let oStr : Option String → String := fun o => o.getD "_"
  let oInt : Option Int → String := fun o => (o.map toString).getD "_"
  dStr p.startTime ++ ";" ++ dStr p.endTime ++ ";" ++ oStr p.logType ++ ";" ++
    (match p.severity with
     | none => "_"
     | some l => String.intercalate "," l) ++ ";" ++
    oStr p.sourceIp ++ ";" ++ oStr p.destIp ++ ";" ++ oInt p.port ++ ";" ++
    oStr p.action ++ ";" ++ oInt p.limit ++ ";" ++ oInt p.offset

/-- buildLogQueryParams (line 534): only its exception behaviour matters to
the embedded claims — `toISOString()` throws a RangeError on an Invalid Date
supplied by the caller; the produced parameter record itself is consumed by
the scripted upstream. -/
def buildLogQueryParams (p : LogQueryParams) : Except JsError Unit :=
  match p.startTime with
  | some none => .error .invalidDate
  | _ =>
    match p.endTime with
    | some none => .error .invalidDate
    | _ => .ok ()

/-- The try-block body of getLogs (lines 266–316). -/
def tryGetLogs (env : ClientEnv) (st : CSt) (params : LogQueryParams) :
    Except JsError (List LogEntry) × CSt :=
  match buildLogQueryParams params with
  | .error e => (.error e, st)
  | .ok _ =>
  match getEndpoint env.version "logs" with
  | .error e => (.error e, st)
  | .ok _ =>
  match axiosReq env reqFuel false st with
  | (.error e, st') => (.error e, st')
  | (.ok (status, data), st') =>
    if status ≠ 200 then (.error .httpFail, st')
    else
      let logsE : Except JsError (List LogEntry) :=
        if jTruthy data && jIsArr (jGet data "logs") then
          match jArrE (jGet data "logs") with
          | .error _ => .error .typeErr
          | .ok xs => .ok (xs.map (parseStructuredLog env))
        else if jTruthy data && jTruthy (jGet data "log_data") then
          match jGet data "log_data" with
          | .arr xs => .ok (xs.map (parseStructuredLog env))
          | .s sdata =>
            .ok (SonicWallLogParser.parseLogs env.js
              ((jsSplit sdata (bsl ++ "n")).filter (fun l => l ≠ "")))
          | _ => .ok []
        else if jTruthy data && jIsStr (jGet data "raw") then
          match jGet data "raw" with
          | .s sdata =>
            .ok (SonicWallLogParser.parseLogs env.js
              ((jsSplit sdata (bsl ++ "n")).filter (fun l => l ≠ "")))
          | _ => .ok []
        else .ok (generateSampleLogs env params)
      match logsE with
      | .error e => (.error e, st')
      | .ok logs0 =>
        let logs1 := filterLogs logs0 params
        let st'' := { st' with cache := (MemoryCache.set st'.cache env.js.now
          ("logs:" ++ paramsKey env params) (.logs logs1) (some 120) 300000) }
        (.ok logs1, st'')

/-- getLogs (line 258): cache check, try-body, catch-all to sample data. -/
def getLogs (env : ClientEnv) (st : CSt) (params : LogQueryParams) :
    Except JsError (List LogEntry) × CSt :=
  let key := "logs:" ++ paramsKey env params
  match MemoryCache.get st.cache env.js.now key with
  | (some v, c') =>
    let st1 := { st with cache := c' }
    (match v with
     | .logs l => (.ok l, st1)
     | _ => (.ok [], st1))
  | (none, c') =>
    let st1 := { st with cache := c' }
    match tryGetLogs env st1 params with
    | (.ok l, st2) => (.ok l, st2)
    | (.error _, st2) => (.ok (generateSampleLogs env params), st2)

/-- The try-block body of getCurrentThreats (lines 334–363). -/
def tryGetCurrentThreats (env : ClientEnv) (st : CSt) :
    Except JsError (List ThreatInfo) × CSt :=
  match getEndpoint env.version "threats" with
  | .error e => (.error e, st)
  | .ok _ =>
  match axiosReq env reqFuel false st with
  | (.error e, st') => (.error e, st')
  | (.ok (status, data), st') =>
    let threatsE : Except JsError (List ThreatInfo) :=
      if status = 200 && jTruthy (jGet data "threats") then
        match jArrE (jGet data "threats") with
        | .error _ => .error .typeErr
        | .ok xs => .ok (xs.map (parseStructuredThreat env))
      else if jTruthy (jGet data "security_services") then
        parseThreatsFromSecurityServices env (jGet data "security_services")
      else if jTruthy (jGet data "statistics") then
        parseThreatsFromStats env (jGet data "statistics")
      else .ok (generateSampleThreats env)
    match threatsE with
    | .error e => (.error e, st')
    | .ok threats =>
      let st'' := { st' with cache := (MemoryCache.set st'.cache env.js.now
        "threats:current" (.threats threats) (some 60) 300000) }
      (.ok threats, st'')

/-- getCurrentThreats (line 326). -/
def getCurrentThreats (env : ClientEnv) (st : CSt) :
    Except JsError (List ThreatInfo) × CSt :=
  match MemoryCache.get st.cache env.js.now "threats:current" with
  | (some v, c') =>
    let st1 := { st with cache := c' }
    (match v with
     | .threats l => (.ok l, st1)
     | _ => (.ok [], st1))
  | (none, c') =>
    let st1 := { st with cache := c' }
    match tryGetCurrentThreats env st1 with
    | (.ok l, st2) => (.ok l, st2)
    | (.error _, st2) => (.ok (generateSampleThreats env), st2)

/-- Tally `logs.reduce(acc[log.sourceIp]++)` preserving first-seen key order
(Object.entries insertion order for non-index keys). -/
def tallyAux : List String → List (String × Int) → List (String × Int)
  | [], acc => acc
  | ip :: rest, acc =>
    let acc' :=
      if acc.any (fun p => p.1 == ip) then
        acc.map (fun p => if p.1 == ip then (p.1, p.2 + 1) else p)
      else acc ++ [(ip, 1)]
    tallyAux rest acc'

/-- Stable sort of `(ip, count)` pairs by count descending
(`.sort(([,a],[,b]) => b - a)`). -/
def insertByCount (x : String × Int) : List (String × Int) → List (String × Int)
  | [] => [x]
  | y :: ys => if x.2 ≥ y.2 then x :: y :: ys else y :: insertByCount x ys

def sortByCountDesc : List (String × Int) → List (String × Int)
  | [] => []
  | x :: xs => insertByCount x (sortByCountDesc xs)

/-- generateStatsFromLogs (line 895): calls getLogs over the last 24 hours
and aggregates; its own catch falls back to all-zero stats. -/
def generateStatsFromLogs (env : ClientEnv) (st : CSt) : SystemStats × CSt :=
  match getLogs env st { startTime := some (some (env.js.now - 86400000)) } with
  | (.ok logs, st') =>
    let totalConnections : Int := logs.length
    let blockedConnections : Int :=
      (logs.filter (fun l => l.action == Action.deny || l.action == Action.drop)).length
    let topIps := (sortByCountDesc (tallyAux (logs.map (fun l => l.sourceIp)) [])).take 10
      |>.map (fun p => ({ ip := .s p.1, count := .n p.2 } : IpCount))
    ({ totalConnections := .n totalConnections
       blockedConnections := .n blockedConnections
       allowedConnections := .n (totalConnections - blockedConnections)
       topBlockedIps := topIps
       topAllowedIps := topIps
       portSummary := []
       threatSummary := [] }, st')
  | (.error _, st') =>
    ({ totalConnections := .n 0
       blockedConnections := .n 0
       allowedConnections := .n 0
       topBlockedIps := []
       topAllowedIps := []
       portSummary := []
       threatSummary := [] }, st')

/-- The try-block body of getSystemStats (lines 378–417): dashboard request
with an inner catch that falls back to the statistics endpoint. -/
def tryGetSystemStats (env : ClientEnv) (st : CSt) : Except JsError SystemStats × CSt :=
  match getEndpoint env.version "dashboard" with
  | .error e => (.error e, st)
  | .ok _ =>
  match getEndpoint env.version "statistics" with
  | .error e => (.error e, st)
  | .ok _ =>
  let attempt : Except JsError (Nat × J) × CSt :=
    match axiosReq env reqFuel false st with
    | (.ok r, st') => (.ok r, st')
    | (.error _, st') => axiosReq env reqFuel false st'
  match attempt with
  | (.error e, st') => (.error e, st')
  | (.ok (status, data), st') =>
    let (stats, st'') :=
      if status = 200 && jTruthy data then (parseSystemStats data, st')
      else generateStatsFromLogs env st'
    let st3 := { st'' with cache := (MemoryCache.set st''.cache env.js.now
      "stats:system" (.stats stats) (some 300) 300000) }
    (.ok stats, st3)

/-- getSystemStats (line 370). -/
def getSystemStats (env : ClientEnv) (st : CSt) : Except JsError SystemStats × CSt :=
  match MemoryCache.get st.cache env.js.now "stats:system" with
  | (some v, c') =>
    let st1 := { st with cache := c' }
    (match v with
     | .stats sv => (.ok sv, st1)
     | _ => (.ok (generateStatsFromLogs env st1).1, st1))
  | (none, c') =>
    let st1 := { st with cache := c' }
    match tryGetSystemStats env st1 with
    | (.ok sv, st2) => (.ok sv, st2)
    | (.error _, st2) =>
      let (sv, st3) := generateStatsFromLogs env st2
      (.ok sv, st3)

end EnhancedSonicWallApiClient

end SW

/-! ## Concrete environments for witnesses and counterexamples -/

namespace SW

/-- A concrete `new Date(string)` behaviour: the few timestamps that the
concrete inputs below exercise, parsed as UTC epoch milliseconds; everything
else is an Invalid Date. -/
def demoDate : String → Option Int := fun s =>
  if s = "2024-01-15T10:00:00" then some 1705312800000
  else if s = "2024-01-01T00:00:00" then some 1704067200000
  else if s = "2024-01-02T00:00:00" then some 1704153600000
  else none

/-- A concrete JavaScript environment (clock at 0). -/
def demoEnv : JsEnv :=
  { now := 0, year := 2024, genId := "id0", jsDate := demoDate,
    jsonParse := fun _ => none, stringify := fun _ => "" }

/-- The same environment at a later instant (a second run of the parser). -/
def demoEnvLater : JsEnv := { demoEnv with now := 1000 }

/-- A placeholder entry for totalizing `Option LogEntry` in witnesses. -/
def blankEntry : LogEntry :=
  { id := "", timestamp := none, severity := .info, category := .system, action := .deny,
    sourceIp := "", sourcePort := none, destIp := "", destPort := none, protocol := .other,
    rule := none, message := "", raw := "" }

/-- Totalize an optional parse result (used only to phrase closed witnesses). -/
def optE (o : Option LogEntry) : LogEntry := o.getD blankEntry

/-! ## C9 — Result cache TTL semantics -/

/-- C9 counterexample: the claim says a `get` at `now = expiresAt` (here the
entry set at time 0 with a 1-second TTL, read at 1000 ms) must miss, but
`MemoryCache.get` only misses when `now > expiry`, so the boundary read
returns the stored value. -/
theorem c9_counterexample :
    (MemoryCache.get (MemoryCache.set ([] : MemoryCache.Store Nat) 0 "k" 42 (some 1) 300000)
      1000 "k").1 = some 42 := by decide


theorem cacheGet_found {α : Type} (c : MemoryCache.Store α) (now : Int) (key : String)
    (e : MemoryCache.CacheEntry α) (hl : MemoryCache.lookupC key c = some e) :
    MemoryCache.get c now key =
      if now > e.expiry then (none, MemoryCache.storeDel key c) else (some e.data, c) := by
  unfold MemoryCache.get
  rw [hl]

theorem cacheGet_absent {α : Type} (c : MemoryCache.Store α) (now : Int) (key : String)
    (hl : MemoryCache.lookupC key c = none) :
    MemoryCache.get c now key = (none, c) := by
  unfold MemoryCache.get
  rw [hl]

/-- C9 (amended): `get(key)` returns the stored value exactly when an entry
exists and `now ≤ expiresAt` (the boundary instant still hits, since the code
misses only when `now > expiry`); when `now > expiresAt` the call reports a
miss and deletes the stale entry, so a get strictly after expiry never
returns the old value. -/
theorem c9_cache_ttl {α : Type} (c : MemoryCache.Store α) (now : Int) (key : String) :
    (∀ v : α, (MemoryCache.get c now key).1 = some v ↔
      ∃ e, MemoryCache.lookupC key c = some e ∧ now ≤ e.expiry ∧ e.data = v) ∧
    (∀ e, MemoryCache.lookupC key c = some e → now > e.expiry →
      (MemoryCache.get c now key).1 = none ∧
      (MemoryCache.get c now key).2 = MemoryCache.storeDel key c) := by
  constructor
  · intro v
    cases hl : MemoryCache.lookupC key c with
    | none =>
      rw [cacheGet_absent c now key hl]
      simp
    | some e =>
      rw [cacheGet_found c now key e hl]
      by_cases hn : now > e.expiry
      · rw [if_pos hn]
        constructor
        · intro hfalse
          exact absurd hfalse (by simp)
        · rintro ⟨e', he', hle, _⟩
          injection he' with he'
          subst he'
          exact absurd hle (not_le.mpr hn)
      · rw [if_neg hn]
        constructor
        · intro h
          have h' : some e.data = some v := h
          injection h' with h'
          exact ⟨e, rfl, not_lt.mp hn, h'⟩
        · rintro ⟨e2, he2, _, hdata⟩
          injection he2 with he2
          subst he2
          show some e.data = some v
          rw [hdata]
  · intro e hl hn
    rw [cacheGet_found c now key e hl, if_pos hn]
    exact ⟨rfl, rfl⟩

/-- C9 witness: a concrete hit inside the TTL, derived from the amended
theorem at an explicit store and instant. -/
theorem c9_witness :
    (MemoryCache.get (MemoryCache.set ([] : MemoryCache.Store Nat) 0 "k" 7 (some 1) 300000)
      500 "k").1 = some 7 :=
  ((c9_cache_ttl (MemoryCache.set ([] : MemoryCache.Store Nat) 0 "k" 7 (some 1) 300000)
    500 "k").1 7).mpr ⟨⟨7, 1000⟩, by decide, by decide, rfl⟩

/-! ## C10 — Fail-closed default for the threat `blocked` flag -/

/-- A concrete client environment (scripted upstream never reached by the
closed statements that use it). -/
def demoClientEnv : EnhancedSonicWallApiClient.ClientEnv :=
  { js := demoEnv, version := .v7,
    reqAns := fun _ => .netErr, authAns := fun _ => .netErr,
    isoStr := fun t => toString t }

/-- C10: `parseStructuredThreat` reports `blocked = false` exactly when the
source object strictly carries `blocked === false` or `action === 'allow'`;
in particular an object omitting both fields is reported as blocked. -/
theorem c10_blocked_fail_closed (env : EnhancedSonicWallApiClient.ClientEnv) (threat : J) :
    ((EnhancedSonicWallApiClient.parseStructuredThreat env threat).blocked = false ↔
      (jGet threat "blocked" = J.b false ∨ jGet threat "action" = J.s "allow")) ∧
    ((jGet threat "blocked" = J.und ∧ jGet threat "action" = J.und) →
      (EnhancedSonicWallApiClient.parseStructuredThreat env threat).blocked = true) := by
  have hb : (EnhancedSonicWallApiClient.parseStructuredThreat env threat).blocked =
      (!(jStrictEqFalse (jGet threat "blocked")) &&
        !(jStrictEqStr "allow" (jGet threat "action"))) := rfl
  constructor
  · rw [hb]
    constructor
    · intro h
      rcases Bool.and_eq_false_iff.mp h with h1 | h2
      · left
        cases hv : jGet threat "blocked" with
        | b bv =>
          cases bv with
          | false => rfl
          | true => rw [hv] at h1; exact absurd h1 (by simp [jStrictEqFalse])
        | und => rw [hv] at h1; exact absurd h1 (by simp [jStrictEqFalse])
        | nul => rw [hv] at h1; exact absurd h1 (by simp [jStrictEqFalse])
        | n x => rw [hv] at h1; exact absurd h1 (by simp [jStrictEqFalse])
        | s x => rw [hv] at h1; exact absurd h1 (by simp [jStrictEqFalse])
        | arr x => rw [hv] at h1; exact absurd h1 (by simp [jStrictEqFalse])
        | obj x => rw [hv] at h1; exact absurd h1 (by simp [jStrictEqFalse])
      · right
        cases hv : jGet threat "action" with
        | s x =>
          rw [hv] at h2
          have hx : x = "allow" := by simpa [jStrictEqStr] using h2
          rw [hx]
        | und => rw [hv] at h2; exact absurd h2 (by simp [jStrictEqStr])
        | nul => rw [hv] at h2; exact absurd h2 (by simp [jStrictEqStr])
        | b x => rw [hv] at h2; exact absurd h2 (by simp [jStrictEqStr])
        | n x => rw [hv] at h2; exact absurd h2 (by simp [jStrictEqStr])
        | arr x => rw [hv] at h2; exact absurd h2 (by simp [jStrictEqStr])
        | obj x => rw [hv] at h2; exact absurd h2 (by simp [jStrictEqStr])
    · intro h
      rcases h with h | h
      · rw [h]; simp [jStrictEqFalse]
      · rw [h]; simp [jStrictEqStr]
  · rintro ⟨h1, h2⟩
    rw [hb, h1, h2]
    rfl

/-- C10 witness: a threat object with no fields at all is reported with
`blocked = true`. -/
theorem c10_witness :
    (EnhancedSonicWallApiClient.parseStructuredThreat demoClientEnv (J.obj [])).blocked = true :=
  (c10_blocked_fail_closed demoClientEnv (J.obj [])).2 ⟨rfl, rfl⟩

/-! ## C2 — Batch normalization length -/

theorem length_insertByTs (x : LogEntry) :
    ∀ l, (EnhancedSonicWallLogParser.insertByTs x l).length = l.length + 1 := by
  intro l
  induction l with
  | nil => rfl
  | cons y ys ih =>
    simp only [EnhancedSonicWallLogParser.insertByTs]
    by_cases h : EnhancedSonicWallLogParser.jsCmpEntries x y ≤ 0
    · rw [if_pos h]; rfl
    · rw [if_neg h]; simp [ih]

theorem length_sortByTsDesc :
    ∀ l, (EnhancedSonicWallLogParser.sortByTsDesc l).length = l.length := by
  intro l
  induction l with
  | nil => rfl
  | cons x xs ih =>
    simp only [EnhancedSonicWallLogParser.sortByTsDesc]
    rw [length_insertByTs, ih]
    rfl

theorem length_filterMap_isSome {β γ : Type} (f : β → Option γ) :
    ∀ l : List β, (l.filterMap f).length = (l.filter (fun x => (f x).isSome)).length := by
  intro l
  induction l with
  | nil => rfl
  | cons x xs ih => cases hf : f x <;> simp [List.filterMap_cons, List.filter_cons, hf, ih]

theorem parseLogLine_none_iff (env : JsEnv) (ver : SonicOSVersion) (l : String) :
    EnhancedSonicWallLogParser.parseLogLine env ver l = none ↔ jsTrim l = "" := by
  unfold EnhancedSonicWallLogParser.parseLogLine
  by_cases h : jsTrim l = ""
  · simp [h]
  · rw [if_neg h]
    simp only [h, iff_false]
    intro hn
    repeat' split at hn
    all_goals exact Option.noConfusion hn

/-- C2 counterexample: a batch consisting of one empty line yields an empty
output — `parseLogLine` returns `null` for a blank line and `parseLogs`
filters the `null` out, so the output length is 0, not the input length 1. -/
theorem c2_counterexample :
    (EnhancedSonicWallLogParser.parseLogs demoEnv .v7 [""]).length ≠
      ([""] : List String).length := by decide

/-- C2 (amended): the output length of `parseLogs` equals the number of input
lines whose trim is non-empty: every non-blank unit yields exactly one event
(possibly via fallback) and none is dropped, while blank or whitespace-only
units are skipped. -/
theorem c2_batch_length (env : JsEnv) (ver : SonicOSVersion) (rawLogs : List String) :
    (EnhancedSonicWallLogParser.parseLogs env ver rawLogs).length =
      (rawLogs.filter (fun l => jsTrim l ≠ "")).length := by
  unfold EnhancedSonicWallLogParser.parseLogs
  rw [length_sortByTsDesc, length_filterMap_isSome]
  congr 1
  apply List.filter_congr
  intro x _
  by_cases h : jsTrim x = ""
  · rw [(parseLogLine_none_iff env ver x).mpr h]
    simp [h]
  · have hne : EnhancedSonicWallLogParser.parseLogLine env ver x ≠ none :=
      fun hn => h ((parseLogLine_none_iff env ver x).mp hn)
    cases hp : EnhancedSonicWallLogParser.parseLogLine env ver x with
    | none => exact absurd hp hne
    | some e => simp [h]

/-! ## C5 — Raw payload round trip -/

theorem createLogEntry_raw (env : JsEnv) (p : EnhancedSonicWallLogParser.PartialEntry) :
    (EnhancedSonicWallLogParser.createLogEntry env p).raw = p.raw := rfl

theorem parse7_raw (env : JsEnv) (s : String) :
    (EnhancedSonicWallLogParser.parseSonicOS7Log env s).raw = s := by
  unfold EnhancedSonicWallLogParser.parseSonicOS7Log
  repeat' split
  all_goals rfl

theorem parse8_raw (env : JsEnv) (s : String) :
    (EnhancedSonicWallLogParser.parseSonicOS8Log env s).raw = s := by
  unfold EnhancedSonicWallLogParser.parseSonicOS8Log
  repeat' split
  all_goals rfl

theorem parseStructuredLog_raw (env : JsEnv) (d : J) (e : LogEntry)
    (h : EnhancedSonicWallLogParser.parseStructuredLog env d = .ok e) :
    e.raw = env.stringify d := by
  unfold EnhancedSonicWallLogParser.parseStructuredLog at h
  split at h
  · injection h with h
    subst h
    rfl
  · exact Except.noConfusion h

/-- C5 counterexample: the input `" x"` (leading whitespace) parses to an
event whose `raw` is the trimmed `"x"` — not the original unit character for
character. -/
theorem c5_counterexample :
    (EnhancedSonicWallLogParser.parseLogLine demoEnv .v7 " x").map
      (fun e => decide (e.raw = " x")) = some false := by decide

/-- C5 (amended): every produced event's `raw` is the whitespace-trimmed
input line — also for units whose structured parse throws, since that
exception is swallowed by the inner catch and the unit falls through to the
syslog chain on the trimmed line — except for successfully parsed structured
input, whose `raw` is the JSON stringification of the parsed object. -/
theorem c5_raw_round_trip (env : JsEnv) (ver : SonicOSVersion) (line : String) (e : LogEntry)
    (h : EnhancedSonicWallLogParser.parseLogLine env ver line = some e) :
    e.raw = jsTrim line ∨
    (∃ obj, env.jsonParse (jsTrim line) = some obj ∧ e.raw = env.stringify obj) := by
  unfold EnhancedSonicWallLogParser.parseLogLine at h
  by_cases hb : jsTrim line = ""
  · rw [if_pos hb] at h
    exact Option.noConfusion h
  · rw [if_neg hb] at h
    dsimp only [] at h
    repeat' split at h
    all_goals
      first
      | exact Option.noConfusion h
      | (injection h with h
         subst h
         first
         | exact Or.inl (parse7_raw env (jsTrim line))
         | exact Or.inl (parse8_raw env (jsTrim line))
         | (rename_i jx obj hjson ex eS hok
            exact Or.inr ⟨obj, hjson, parseStructuredLog_raw env obj eS hok⟩))

/-- C5 witness: the amended round-trip instantiated at the concrete input
`" x"`. -/
theorem c5_witness :
    (optE (EnhancedSonicWallLogParser.parseLogLine demoEnv .v7 " x")).raw = jsTrim " x" ∨
    (∃ obj, demoEnv.jsonParse (jsTrim " x") = some obj ∧
      (optE (EnhancedSonicWallLogParser.parseLogLine demoEnv .v7 " x")).raw =
        demoEnv.stringify obj) :=
  c5_raw_round_trip demoEnv .v7 " x"
    (optE (EnhancedSonicWallLogParser.parseLogLine demoEnv .v7 " x")) (by decide)

/-! ## C6 — Idempotence across runs -/

/-- All fields of an event except the run-dependent `id` and `timestamp`. -/
def stableFields (e : LogEntry) :
    Severity × Category × Action × String × Option Int × String × Option Int ×
      Protocol × Option String × String × String × Option String × Option String ×
      Option String × Option String × Option Int :=
  (e.severity, e.category, e.action, e.sourceIp, e.sourcePort, e.destIp, e.destPort,
   e.protocol, e.rule, e.message, e.raw, e.cloudId, e.tenantId, e.fileHash, e.threatName,
   e.analysisTime)

theorem stable_parse7 (env1 env2 : JsEnv) (s : String) :
    stableFields (EnhancedSonicWallLogParser.parseSonicOS7Log env1 s) =
    stableFields (EnhancedSonicWallLogParser.parseSonicOS7Log env2 s) := by
  unfold EnhancedSonicWallLogParser.parseSonicOS7Log
  cases h1 : reMatchA false v7vpnRE s with
  | some m => rfl
  | none =>
  cases h2 : reMatchA false v7ipsRE s with
  | some m => rfl
  | none =>
  cases h3 : reMatchA false v7standardRE s with
  | some m => rfl
  | none =>
  cases h4 : reMatch true simpleRE s with
  | some m => rfl
  | none => rfl

theorem stable_parse8 (env1 env2 : JsEnv) (s : String) :
    stableFields (EnhancedSonicWallLogParser.parseSonicOS8Log env1 s) =
    stableFields (EnhancedSonicWallLogParser.parseSonicOS8Log env2 s) := by
  unfold EnhancedSonicWallLogParser.parseSonicOS8Log
  cases h1 : reMatchA false v8captureAtpRE s with
  | some m => rfl
  | none =>
  cases h2 : reMatchA false v8atpRE s with
  | some m => rfl
  | none =>
  cases h3 : reMatchA false v8enhancedRE s with
  | some m => rfl
  | none =>
  cases h4 : reMatch true simpleRE s with
  | some m => rfl
  | none => rfl

theorem stable_structured (env1 env2 : JsEnv) (hsf : env1.stringify = env2.stringify)
    (obj : J) :
    (EnhancedSonicWallLogParser.parseStructuredLog env1 obj).map stableFields =
    (EnhancedSonicWallLogParser.parseStructuredLog env2 obj).map stableFields := by
  unfold EnhancedSonicWallLogParser.parseStructuredLog
  cases hP : jOr (jGet obj "protocol") (jGet obj "proto") <;>
    first
    | rfl
    | (rw [hsf]; rfl)

/-- C6 counterexample: the same unparseable line parsed at two different
instants receives two different timestamps (the fallback extractor stamps
events with the ingestion time), contradicting field-for-field identity of
everything but `id` across runs. -/
theorem c6_counterexample :
    (EnhancedSonicWallLogParser.parseLogLine demoEnv .v7 "garbage").map
      (fun e => e.timestamp) = some (some 0) ∧
    (EnhancedSonicWallLogParser.parseLogLine demoEnvLater .v7 "garbage").map
      (fun e => e.timestamp) = some (some 1000) := by decide

/-- C6 (amended): two runs of the per-line normalizer over the same input —
with the same deterministic built-ins (`Date` parsing, `JSON.parse`,
`JSON.stringify`) but different clocks, current years, and generated ids —
agree on every field except `id` and `timestamp`; timestamps (and hence the
sorted batch order) may differ for units whose source supplies no parseable
timestamp, because those default to the ingestion time. -/
theorem c6_stable_across_runs (env1 env2 : JsEnv)
    (hdj : env1.jsDate = env2.jsDate) (hjp : env1.jsonParse = env2.jsonParse)
    (hsf : env1.stringify = env2.stringify) (ver : SonicOSVersion) (line : String) :
    (EnhancedSonicWallLogParser.parseLogLine env1 ver line).map stableFields =
    (EnhancedSonicWallLogParser.parseLogLine env2 ver line).map stableFields := by
  have hstruct : ∀ (obj : J) (v1 v2 : LogEntry), stableFields v1 = stableFields v2 →
      Option.map stableFields
        (match EnhancedSonicWallLogParser.parseStructuredLog env1 obj with
         | .ok e => some e
         | .error _ => some v1) =
      Option.map stableFields
        (match EnhancedSonicWallLogParser.parseStructuredLog env2 obj with
         | .ok e => some e
         | .error _ => some v2) := by
    intro obj v1 v2 hv
    have hst := stable_structured env1 env2 hsf obj
    cases hs1 : EnhancedSonicWallLogParser.parseStructuredLog env1 obj with
    | ok e1 =>
      cases hs2 : EnhancedSonicWallLogParser.parseStructuredLog env2 obj with
      | ok e2 =>
        rw [hs1, hs2] at hst
        simp only [Except.map] at hst
        injection hst with hst
        exact congrArg some hst
      | error u2 =>
        rw [hs1, hs2] at hst
        simp only [Except.map] at hst
        exact absurd hst (by simp)
    | error u1 =>
      cases hs2 : EnhancedSonicWallLogParser.parseStructuredLog env2 obj with
      | ok e2 =>
        rw [hs1, hs2] at hst
        simp only [Except.map] at hst
        exact absurd hst (by simp)
      | error u2 => exact congrArg some hv
  unfold EnhancedSonicWallLogParser.parseLogLine
  by_cases hb : jsTrim line = ""
  · rw [if_pos hb, if_pos hb]
  · rw [if_neg hb, if_neg hb, hjp]
    dsimp only
    cases ver <;>
      (cases hdat : (jsTrim line).data with
       | nil =>
         first
         | exact congrArg some (stable_parse7 env1 env2 (jsTrim line))
         | exact congrArg some (stable_parse8 env1 env2 (jsTrim line))
       | cons c t =>
         dsimp only
         by_cases hc : c = Char.ofNat 123
         · rw [if_pos hc, if_pos hc]
           cases hj : env2.jsonParse (jsTrim line) with
           | none =>
             first
             | exact congrArg some (stable_parse7 env1 env2 (jsTrim line))
             | exact congrArg some (stable_parse8 env1 env2 (jsTrim line))
           | some obj =>
             first
             | exact hstruct obj _ _ (stable_parse7 env1 env2 (jsTrim line))
             | exact hstruct obj _ _ (stable_parse8 env1 env2 (jsTrim line))
         · rw [if_neg hc, if_neg hc]
           first
           | exact congrArg some (stable_parse7 env1 env2 (jsTrim line))
           | exact congrArg some (stable_parse8 env1 env2 (jsTrim line)))

/-- C6 witness: the amended stability instantiated at two runs of the same
environment whose clock advanced by one second. -/
theorem c6_witness :
    (EnhancedSonicWallLogParser.parseLogLine demoEnv .v7 "garbage").map stableFields =
    (EnhancedSonicWallLogParser.parseLogLine demoEnvLater .v7 "garbage").map stableFields :=
  c6_stable_across_runs demoEnv demoEnvLater rfl rfl rfl .v7 "garbage"
/-! ## C7 — Descending timestamp order -/

/-- Timestamp value used by the sort comparator (`getTime()`), defaulting an
Invalid Date for the statement of sortedness. -/
def tsGetD (e : LogEntry) : Int := e.timestamp.getD 0

/-- Descending-timestamp relation. -/
def tsDescR (a b : LogEntry) : Prop := tsGetD b ≤ tsGetD a

theorem mem_insertByTs (x : LogEntry) :
    ∀ (l : List LogEntry) (z : LogEntry),
      z ∈ EnhancedSonicWallLogParser.insertByTs x l ↔ z = x ∨ z ∈ l := by
  intro l
  induction l with
  | nil => intro z; simp [EnhancedSonicWallLogParser.insertByTs]
  | cons y ys ih =>
    intro z
    simp only [EnhancedSonicWallLogParser.insertByTs]
    by_cases h : EnhancedSonicWallLogParser.jsCmpEntries x y ≤ 0
    · rw [if_pos h]
      simp [List.mem_cons] <;> tauto
    · rw [if_neg h]
      simp [List.mem_cons, ih] <;> tauto

theorem mem_sortByTsDesc :
    ∀ (l : List LogEntry) (z : LogEntry),
      z ∈ EnhancedSonicWallLogParser.sortByTsDesc l ↔ z ∈ l := by
  intro l
  induction l with
  | nil => intro z; simp [EnhancedSonicWallLogParser.sortByTsDesc]
  | cons x xs ih =>
    intro z
    simp only [EnhancedSonicWallLogParser.sortByTsDesc]
    rw [mem_insertByTs, ih]
    simp [List.mem_cons]

theorem jsCmp_le_of_valid {x y : LogEntry} (hx : x.timestamp.isSome = true)
    (hy : y.timestamp.isSome = true)
    (h : EnhancedSonicWallLogParser.jsCmpEntries x y ≤ 0) : tsGetD y ≤ tsGetD x := by
  obtain ⟨tx, hx'⟩ := Option.isSome_iff_exists.mp hx
  obtain ⟨ty, hy'⟩ := Option.isSome_iff_exists.mp hy
  unfold EnhancedSonicWallLogParser.jsCmpEntries at h
  rw [hx', hy'] at h
  dsimp only at h
  unfold tsGetD
  rw [hx', hy']
  simp only [Option.getD_some]
  omega

theorem jsCmp_gt_of_valid {x y : LogEntry} (hx : x.timestamp.isSome = true)
    (hy : y.timestamp.isSome = true)
    (h : ¬ EnhancedSonicWallLogParser.jsCmpEntries x y ≤ 0) : tsGetD x ≤ tsGetD y := by
  obtain ⟨tx, hx'⟩ := Option.isSome_iff_exists.mp hx
  obtain ⟨ty, hy'⟩ := Option.isSome_iff_exists.mp hy
  unfold EnhancedSonicWallLogParser.jsCmpEntries at h
  rw [hx', hy'] at h
  dsimp only at h
  unfold tsGetD
  rw [hx', hy']
  simp only [Option.getD_some]
  omega

theorem pairwise_insertByTs (x : LogEntry) :
    ∀ (l : List LogEntry), x.timestamp.isSome = true →
      (∀ e ∈ l, e.timestamp.isSome = true) → List.Pairwise tsDescR l →
      List.Pairwise tsDescR (EnhancedSonicWallLogParser.insertByTs x l) := by
  intro l
  induction l with
  | nil => intro _ _ _; simp [EnhancedSonicWallLogParser.insertByTs]
  | cons y ys ih =>
    intro hx hl hp
    rcases List.pairwise_cons.mp hp with ⟨hy, hys⟩
    simp only [EnhancedSonicWallLogParser.insertByTs]
    by_cases h : EnhancedSonicWallLogParser.jsCmpEntries x y ≤ 0
    · rw [if_pos h]
      have hxy : tsGetD y ≤ tsGetD x :=
        jsCmp_le_of_valid hx (hl y (List.mem_cons_self _ _)) h
      refine List.Pairwise.cons ?_ hp
      intro z hz
      rcases List.mem_cons.mp hz with rfl | hz2
      · exact hxy
      · exact le_trans (hy z hz2) hxy
    · rw [if_neg h]
      have hyx : tsGetD x ≤ tsGetD y :=
        jsCmp_gt_of_valid hx (hl y (List.mem_cons_self _ _)) h
      refine List.Pairwise.cons ?_
        (ih hx (fun e he => hl e (List.mem_cons_of_mem _ he)) hys)
      intro z hz
      rcases (mem_insertByTs x ys z).mp hz with rfl | hz2
      · exact hyx
      · exact hy z hz2

theorem pairwise_sortByTsDesc :
    ∀ l : List LogEntry, (∀ e ∈ l, e.timestamp.isSome = true) →
      List.Pairwise tsDescR (EnhancedSonicWallLogParser.sortByTsDesc l) := by
  intro l
  induction l with
  | nil => intro _; simp [EnhancedSonicWallLogParser.sortByTsDesc]
  | cons x xs ih =>
    intro hl
    simp only [EnhancedSonicWallLogParser.sortByTsDesc]
    refine pairwise_insertByTs x _ (hl x (List.mem_cons_self _ _)) ?_
      (ih (fun e he => hl e (List.mem_cons_of_mem _ he)))
    intro e he
    exact hl e (List.mem_cons_of_mem _ ((mem_sortByTsDesc xs e).mp he))

/-- C7 counterexample: the retrieval client parses raw syslog through
`SonicWallLogParser.parseLogs`, which does not sort — two lines with
ascending timestamps come back in input (ascending) order, so the batch is
not sorted descending on this path. -/
theorem c7_counterexample :
    (SonicWallLogParser.parseLogs demoEnv
      ["2024-01-01T00:00:00 DENY SRC=d.d DST=d.d PROTO=TCP",
       "2024-01-02T00:00:00 DENY SRC=d.d DST=d.d PROTO=TCP"]).map
      (fun e => e.timestamp) = [some 1704067200000, some 1704153600000] ∧
    (1704067200000 : Int) < 1704153600000 := by decide

/-- C7 (amended): the enhanced engine's `parseLogs` does return its batch
sorted by timestamp descending whenever every parsed unit carries a valid
timestamp (with Invalid Dates the comparator yields `NaN`, which the
ECMAScript sort treats as 0, and order is not guaranteed); the basic
`SonicWallLogParser.parseLogs` used by the retrieval client for raw syslog
performs no sorting at all. -/
theorem c7_sorted_desc (env : JsEnv) (ver : SonicOSVersion) (rawLogs : List String)
    (h : ∀ e ∈ rawLogs.filterMap (EnhancedSonicWallLogParser.parseLogLine env ver),
      e.timestamp.isSome = true) :
    List.Pairwise tsDescR (EnhancedSonicWallLogParser.parseLogs env ver rawLogs) := by
  unfold EnhancedSonicWallLogParser.parseLogs
  exact pairwise_sortByTsDesc _ h

/-- C7 witness: the amended sortedness at a concrete two-line batch with
valid timestamps. -/
theorem c7_witness :
    List.Pairwise tsDescR (EnhancedSonicWallLogParser.parseLogs demoEnv .v7
      ["2024-01-01T00:00:00 DENY SRC=d.d DST=d.d PROTO=TCP",
       "2024-01-02T00:00:00 DENY SRC=d.d DST=d.d PROTO=TCP"]) :=
  c7_sorted_desc demoEnv .v7
    ["2024-01-01T00:00:00 DENY SRC=d.d DST=d.d PROTO=TCP",
     "2024-01-02T00:00:00 DENY SRC=d.d DST=d.d PROTO=TCP"] (by decide)

/-! ## C4 — Availability over errors -/

/-- Whether a JavaScript async call resolved (rather than rejected). -/
def exceptOk {ε α : Type} : Except ε α → Bool
  | .ok _ => true
  | .error _ => false

/-- C4: whatever the upstream does (network error, any HTTP status, malformed
or missing payload, authentication failure inside the call) and whatever
state the client is in, `getLogs`, `getCurrentThreats` and `getSystemStats`
resolve with a well-typed value — every internal failure is caught and
converted to sample/placeholder data — and never reject. -/
theorem c4_availability (env : EnhancedSonicWallApiClient.ClientEnv)
    (st : EnhancedSonicWallApiClient.CSt) (params : LogQueryParams) :
    exceptOk (EnhancedSonicWallApiClient.getLogs env st params).1 = true ∧
    exceptOk (EnhancedSonicWallApiClient.getCurrentThreats env st).1 = true ∧
    exceptOk (EnhancedSonicWallApiClient.getSystemStats env st).1 = true := by
  refine ⟨?_, ?_, ?_⟩
  · unfold EnhancedSonicWallApiClient.getLogs
    dsimp only
    repeat' split
    all_goals rfl
  · unfold EnhancedSonicWallApiClient.getCurrentThreats
    dsimp only
    repeat' split
    all_goals rfl
  · unfold EnhancedSonicWallApiClient.getSystemStats
    dsimp only
    repeat' split
    all_goals rfl

/-! ## C3 — Single re-authentication on 401 -/

/-- An upstream that answers every data request with HTTP 401 and would have
accepted a re-authentication attempt, had one been made. -/
def env401 : EnhancedSonicWallApiClient.ClientEnv :=
  { js := demoEnv, version := .v7,
    reqAns := fun _ => .http 401 J.nul none,
    authAns := fun _ => .http 200 (J.obj [("token", J.s "t2"), ("expires_in", J.n 3600)]),
    isoStr := fun t => toString t }

/-- A client state holding a credential the client believes valid
(token present and the clock before its expiry instant). -/
def st401 : EnhancedSonicWallApiClient.CSt :=
  { authToken := some "tok", tokenExpiry := some (some 10000) }

/-- C3 (code bug): the constructor's `validateStatus: status < 500` resolves
an HTTP 401 answer as a success, so the response interceptor's 401 branch
(discard credential, re-authenticate once, retry) is unreachable: against an
upstream that rejects the believed-valid credential with 401, the client
performs zero re-authentications (`authCount = 0`), never retries the call
(`reqCount = 1`), and `getLogs` silently degrades to sample data instead. -/
theorem c3_dead_reauth_branch :
    (EnhancedSonicWallApiClient.getLogs env401 st401 {}).1 =
      .ok (EnhancedSonicWallApiClient.generateSampleLogs env401 {}) ∧
    (EnhancedSonicWallApiClient.getLogs env401 st401 {}).2.authCount = 0 ∧
    (EnhancedSonicWallApiClient.getLogs env401 st401 {}).2.reqCount = 1 :=
  ⟨rfl, rfl, rfl⟩

/-! ## C8 — Bounded rate-limit recovery on 429 -/

/-- An upstream that answers every data request with HTTP 429 carrying a
`retry-after: 7` header. -/
def env429 : EnhancedSonicWallApiClient.ClientEnv :=
  { env401 with reqAns := fun _ => .http 429 J.nul (some "7") }

/-- C8 (code bug): `validateStatus: status < 500` also resolves HTTP 429 as a
success, so the response interceptor's 429 branch (sleep `retry-after`
seconds, then retry once) is unreachable: against a rate-limiting upstream
the client performs no wait at all (`waits = []`), never retries
(`reqCount = 1`), and `getLogs` silently degrades to sample data. -/
theorem c8_dead_ratelimit_branch :
    (EnhancedSonicWallApiClient.getLogs env429 st401 {}).1 =
      .ok (EnhancedSonicWallApiClient.generateSampleLogs env429 {}) ∧
    (EnhancedSonicWallApiClient.getLogs env429 st401 {}).2.waits = [] ∧
    (EnhancedSonicWallApiClient.getLogs env429 st401 {}).2.reqCount = 1 :=
  ⟨rfl, rfl, rfl⟩

/-! ## C1 — Fail-closed action normalization -/

theorem litEat_exact : ∀ (l t : List Char), litEat false l t = some [] → t = l := by
  intro l
  induction l with
  | nil =>
    intro t h
    simp only [litEat, Option.some.injEq] at h
    exact h
  | cons x xs ih =>
    intro t h
    cases t with
    | nil => simp [litEat] at h
    | cons c cs =>
      simp only [litEat] at h
      by_cases hc : chEq false x c = true
      · rw [if_pos hc] at h
        have hxc : x = c := by simpa [chEq] using hc
        rw [← hxc, ih cs h]
      · rw [if_neg hc] at h
        exact absurd h (by simp)

theorem dropTail_pre (p : Char → Bool) (l : List Char) :
    ∃ post, l = dropTail p l ++ post := by
  refine ⟨(l.reverse.takeWhile p).reverse, ?_⟩
  unfold dropTail
  calc l = l.reverse.reverse := (List.reverse_reverse l).symm
  _ = (l.reverse.takeWhile p ++ l.reverse.dropWhile p).reverse := by
        rw [List.takeWhile_append_dropWhile]
  _ = (l.reverse.dropWhile p).reverse ++ (l.reverse.takeWhile p).reverse := by
        rw [List.reverse_append]

theorem jsTrim_sub (s : String) : subL (jsTrim s).data s.data := by
  obtain ⟨post, hpost⟩ := dropTail_pre jsWs (s.data.dropWhile jsWs)
  refine ⟨s.data.takeWhile jsWs, post, ?_⟩
  show s.data = s.data.takeWhile jsWs ++ jsTrimL s.data ++ post
  unfold jsTrimL
  conv_lhs => rw [← List.takeWhile_append_dropWhile jsWs s.data, hpost]
  rw [List.append_assoc]

theorem containsL_mono (s t kw : List Char) (hsub : subL s t) (h : containsL s kw = true) :
    containsL t kw = true :=
  (containsL_iff kw t).mpr (subL_trans ((containsL_iff kw s).mp h) hsub)

theorem containsCI_of_sub (s v kw : String) (hlow : lowL kw.data = kw.data)
    (hsub : subL v.data s.data) (hinc : SW.strIncludes (SW.jsLower v) kw = true) :
    containsCI s kw = true := by
  have h1 : containsL (lowL v.data) kw.data = true := hinc
  have h2 : subL kw.data (lowL v.data) := (containsL_iff kw.data (lowL v.data)).mp h1
  have h3 : subL (lowL v.data) (lowL s.data) := subL_map lowCh hsub
  show containsL (lowL s.data) (lowL kw.data) = true
  rw [hlow]
  exact (containsL_iff kw.data (lowL s.data)).mpr (subL_trans h2 h3)

theorem containsCI_trim (s kw : String) (h : containsCI (jsTrim s) kw = true) :
    containsCI s kw = true := by
  show containsL (lowL s.data) (lowL kw.data) = true
  have h0 : containsL (lowL (jsTrim s).data) (lowL kw.data) = true := h
  exact containsL_mono (lowL (jsTrim s).data) (lowL s.data) (lowL kw.data)
    (subL_map lowCh (jsTrim_sub s)) h0

/-- Case-insensitive presence of one of the three permission keywords the
parsers' action normalizers accept. -/
def keywordEvidence (s : String) : Bool :=
  ["allow", "permit", "accept"].any (fun kw => containsCI s kw)

theorem keywordEvidence_of (s kw : String) (hmem : kw ∈ ["allow", "permit", "accept"])
    (h : containsCI s kw = true) : keywordEvidence s = true := by
  unfold keywordEvidence
  simp only [List.any_eq_true]
  exact ⟨kw, hmem, h⟩

theorem keywordEvidence_trim (s : String) (h : keywordEvidence (jsTrim s) = true) :
    keywordEvidence s = true := by
  unfold keywordEvidence at h ⊢
  simp only [List.any_eq_true] at h ⊢
  obtain ⟨kw, hmem, hkw⟩ := h
  exact ⟨kw, hmem, containsCI_trim s kw hkw⟩

theorem extractAction_allow (msg : String)
    (h : EnhancedSonicWallLogParser.extractAction msg = Action.allow) :
    strIncludes (jsLower msg) "allow" = true ∨ strIncludes (jsLower msg) "permit" = true ∨
    strIncludes (jsLower msg) "accept" = true := by
  by_cases hc : (strIncludes (jsLower msg) "allow" || strIncludes (jsLower msg) "permit" ||
      strIncludes (jsLower msg) "accept") = true
  · simp only [Bool.or_eq_true] at hc
    tauto
  · exfalso
    unfold EnhancedSonicWallLogParser.extractAction at h
    dsimp only at h
    rw [if_neg hc] at h
    repeat' split at h
    all_goals exact Action.noConfusion h

theorem normalizeAction_allow (v : J)
    (h : EnhancedSonicWallLogParser.normalizeAction v = Action.allow) :
    (strIncludes (jsLower (jToString v)) "allow" ||
     strIncludes (jsLower (jToString v)) "permit" ||
     strIncludes (jsLower (jToString v)) "accept") = true := by
  by_cases hc : (strIncludes (jsLower (jToString v)) "allow" ||
      strIncludes (jsLower (jToString v)) "permit" ||
      strIncludes (jsLower (jToString v)) "accept") = true
  · exact hc
  · exfalso
    unfold EnhancedSonicWallLogParser.normalizeAction at h
    dsimp only at h
    rw [if_neg hc] at h
    repeat' split at h
    all_goals exact Action.noConfusion h

theorem actionCast_allow (s : String) (h : actionCast s = Action.allow) : s = "allow" := by
  by_cases hs : s = "allow"
  · exact hs
  · exfalso
    unfold actionCast at h
    rw [if_neg hs] at h
    repeat' split at h
    all_goals exact Action.noConfusion h

theorem extract_capture_evidence (s : String) (o : Option String)
    (hsub : ∀ v, o = some v → subL v.data s.data)
    (ha : EnhancedSonicWallLogParser.extractAction (o.getD "") = Action.allow) :
    keywordEvidence s = true := by
  cases o with
  | none => exact absurd ha (by decide)
  | some v =>
    rcases extractAction_allow v ha with h | h | h
    · exact keywordEvidence_of s "allow" (by decide)
        (containsCI_of_sub s v "allow" (by decide) (hsub v rfl) h)
    · exact keywordEvidence_of s "permit" (by decide)
        (containsCI_of_sub s v "permit" (by decide) (hsub v rfl) h)
    · exact keywordEvidence_of s "accept" (by decide)
        (containsCI_of_sub s v "accept" (by decide) (hsub v rfl) h)

theorem actionCast_capture_evidence (s : String) (o : Option String)
    (hsub : ∀ v, o = some v → subL v.data s.data)
    (ha : actionCast (jsLower (o.getD "")) = Action.allow) :
    keywordEvidence s = true := by
  cases o with
  | none => exact absurd ha (by decide)
  | some v =>
    have hv : jsLower v = "allow" := actionCast_allow (jsLower v) ha
    have hinc : strIncludes (jsLower v) "allow" = true := by rw [hv]; decide
    exact keywordEvidence_of s "allow" (by decide)
      (containsCI_of_sub s v "allow" (by decide) (hsub v rfl) hinc)

theorem capsGet_cons_self (i : Nat) (v : String) (rest : Caps) :
    capsGet ((i, v) :: rest) i = some v := by
  unfold capsGet
  rw [List.find?_cons_of_pos _ (by simp)]
  rfl

theorem captureAtp_clean (s : String) (m : Caps)
    (hm : reMatchA false v8captureAtpRE s = some m)
    (hc7 : capsGet m 7 = some "clean") :
    subL ("disposition=clean").data s.data := by
  obtain ⟨pre, rest, heq, hmre⟩ := reMatchA_sound hm
  rw [show v8captureAtpRE = RE.cat v8captureAtpPre
    (RE.cat (RE.lit "disposition=") (RE.grp 7 (RE.plus CCls.word))) from rfl] at hmre
  cases hmre with
  | cat h1 h2 =>
    cases h2 with
    | cat h21 h22 =>
      cases h21 with
      | lit hlit =>
        cases h22 with
        | grp h223 =>
          cases h223 with
          | plus hlo hall =>
            rename_i p0 c0 y1 y2
            have hy1 : y1 = ("disposition=").data := litEat_exact _ _ hlit
            simp only [List.append_nil, List.singleton_append] at hc7
            rw [capsGet_cons_self] at hc7
            injection hc7 with hc7
            have hy2 : y2 = ("clean").data := congrArg String.data hc7
            refine ⟨p0, rest, ?_⟩
            rw [heq, hy1, hy2, show ("disposition=").data ++ ("clean").data =
              ("disposition=clean").data by decide]

theorem vpn_no_success (s : String) (m : Caps)
    (hm : reMatchA false v7vpnRE s = some m) :
    jsLower ((capsGet m 5).getD "") ≠ "success" := by
  obtain ⟨pre, rest, heq, hmre⟩ := reMatchA_sound hm
  rw [show v7vpnRE = RE.cat v7vpnPre (RE.cat (RE.lit "result=")
    (RE.cat (RE.grp 5 (RE.cat (RE.lit bsl) (RE.plus (CCls.oneOf ['w'])))) v7vpnPost))
    from rfl] at hmre
  cases hmre with
  | cat h1 h2 =>
    cases h2 with
    | cat h21 h22 =>
      cases h21 with
      | lit hlitr =>
        cases h22 with
        | cat h221 h222 =>
          cases h221 with
          | grp hbody =>
            cases hbody with
            | cat hb1 hb2 =>
              cases hb1 with
              | lit hlitb =>
                cases hb2 with
                | plus hlo hall =>
                  rename_i p0 c0 r1 p1 d2 w1 w2
                  have hw1 : w1 = bsl.data := litEat_exact _ _ hlitb
                  have hidx : ∀ p ∈ d2, p.1 ≠ 5 := by
                    intro p hp
                    have h6 := MRE_caps_idx h222 p hp
                    rw [show reIdxs v7vpnPost = [6] from rfl] at h6
                    simp at h6
                    omega
                  simp only [List.append_nil, List.nil_append, List.append_assoc,
                    List.singleton_append]
                  rw [capsGet_append_ne d2 _ 5 hidx, capsGet_cons_self]
                  intro hcon
                  have hcon2 : jsLower (String.mk (w1 ++ w2)) = "success" := hcon
                  rw [hw1] at hcon2
                  have hh : some (lowCh (Char.ofNat 92)) = ("success").data.head? :=
                    congrArg (fun t => t.data.head?) hcon2
                  exact absurd hh (by decide)

theorem fallback_allow (env : JsEnv) (r : String)
    (ha : (EnhancedSonicWallLogParser.createFallbackLogEntry env r).action = Action.allow) :
    keywordEvidence r = true := by
  unfold EnhancedSonicWallLogParser.createFallbackLogEntry at ha
  cases hm : reMatch true fallbackActionRE r with
  | none =>
    rw [hm] at ha
    have ha2 : Action.deny = Action.allow := ha
    exact absurd ha2 (by decide)
  | some m =>
    rw [hm] at ha
    have ha2 : actionCast (jsLower ((capsGet m 1).getD "")) = Action.allow := ha
    exact actionCast_capture_evidence r (capsGet m 1)
      (fun v hv => reMatch_cap_sub hm hv) ha2

theorem parse7_allow (env : JsEnv) (s : String)
    (ha : (EnhancedSonicWallLogParser.parseSonicOS7Log env s).action = Action.allow) :
    keywordEvidence s = true := by
  unfold EnhancedSonicWallLogParser.parseSonicOS7Log at ha
  cases hvpn : reMatchA false v7vpnRE s with
  | some m =>
    rw [hvpn] at ha
    have ha2 : (if jsLower ((capsGet m 5).getD "") = "success"
        then Action.allow else Action.deny) = Action.allow := ha
    by_cases hs : jsLower ((capsGet m 5).getD "") = "success"
    · exact absurd hs (vpn_no_success s m hvpn)
    · rw [if_neg hs] at ha2
      exact absurd ha2 (by decide)
  | none =>
  rw [hvpn] at ha
  cases hips : reMatchA false v7ipsRE s with
  | some m =>
    rw [hips] at ha
    have ha2 : Action.drop = Action.allow := ha
    exact absurd ha2 (by decide)
  | none =>
  rw [hips] at ha
  cases hstd : reMatchA false v7standardRE s with
  | some m =>
    rw [hstd] at ha
    have ha2 : EnhancedSonicWallLogParser.extractAction
        ((capsGet m 9).getD "") = Action.allow := ha
    exact extract_capture_evidence s (capsGet m 9)
      (fun v hv => reMatchA_cap_sub hstd hv) ha2
  | none =>
  rw [hstd] at ha
  cases hsim : reMatch true simpleRE s with
  | some m =>
    rw [hsim] at ha
    have ha2 : actionCast (jsLower ((capsGet m 2).getD "")) = Action.allow := ha
    exact actionCast_capture_evidence s (capsGet m 2)
      (fun v hv => reMatch_cap_sub hsim hv) ha2
  | none =>
  rw [hsim] at ha
  exact fallback_allow env s ha

theorem parse8_allow (env : JsEnv) (s : String)
    (ha : (EnhancedSonicWallLogParser.parseSonicOS8Log env s).action = Action.allow) :
    keywordEvidence s = true ∨ containsL s.data ("disposition=clean").data = true := by
  unfold EnhancedSonicWallLogParser.parseSonicOS8Log at ha
  cases hcap : reMatchA false v8captureAtpRE s with
  | some m =>
    rw [hcap] at ha
    have ha2 : (if (capsGet m 7).getD "" = "clean"
        then Action.allow else Action.deny) = Action.allow := ha
    by_cases h7 : (capsGet m 7).getD "" = "clean"
    · cases hc7 : capsGet m 7 with
      | none =>
        rw [hc7] at h7
        exact absurd h7 (by decide)
      | some v =>
        rw [hc7] at h7
        have hv : v = "clean" := h7
        subst hv
        exact Or.inr ((containsL_iff ("disposition=clean").data s.data).mpr
          (captureAtp_clean s m hcap hc7))
    · rw [if_neg h7] at ha2
      exact absurd ha2 (by decide)
  | none =>
  rw [hcap] at ha
  cases hatp : reMatchA false v8atpRE s with
  | some m =>
    rw [hatp] at ha
    have ha2 : (if (capsGet m 7).getD "" = "allow"
        then Action.allow else Action.deny) = Action.allow := ha
    by_cases h7 : (capsGet m 7).getD "" = "allow"
    · cases hc7 : capsGet m 7 with
      | none =>
        rw [hc7] at h7
        exact absurd h7 (by decide)
      | some v =>
        rw [hc7] at h7
        have hv : v = "allow" := h7
        subst hv
        exact Or.inl (keywordEvidence_of s "allow" (by decide)
          (containsCI_of_sub s "allow" "allow" (by decide)
            (reMatchA_cap_sub hatp hc7) (by decide)))
    · rw [if_neg h7] at ha2
      exact absurd ha2 (by decide)
  | none =>
  rw [hatp] at ha
  cases henh : reMatchA false v8enhancedRE s with
  | some m =>
    rw [henh] at ha
    have ha2 : EnhancedSonicWallLogParser.extractAction
        ((capsGet m 9).getD "") = Action.allow := ha
    exact Or.inl (extract_capture_evidence s (capsGet m 9)
      (fun v hv => reMatchA_cap_sub henh hv) ha2)
  | none =>
  rw [henh] at ha
  cases hsim : reMatch true simpleRE s with
  | some m =>
    rw [hsim] at ha
    have ha2 : actionCast (jsLower ((capsGet m 2).getD "")) = Action.allow := ha
    exact Or.inl (actionCast_capture_evidence s (capsGet m 2)
      (fun v hv => reMatch_cap_sub hsim hv) ha2)
  | none =>
  rw [hsim] at ha
  exact Or.inl (fallback_allow env s ha)

theorem structured_allow (env : JsEnv) (d : J) (e : LogEntry)
    (hok : EnhancedSonicWallLogParser.parseStructuredLog env d = .ok e)
    (ha : e.action = Action.allow) :
    (strIncludes (jsLower (jToString (jOr (jGet d "action") (jGet d "disposition")))) "allow" ||
     strIncludes (jsLower (jToString (jOr (jGet d "action") (jGet d "disposition")))) "permit" ||
     strIncludes (jsLower (jToString (jOr (jGet d "action") (jGet d "disposition")))) "accept")
      = true := by
  unfold EnhancedSonicWallLogParser.parseStructuredLog at hok
  split at hok
  · injection hok with hok
    subst hok
    have ha2 : EnhancedSonicWallLogParser.normalizeAction
        (jOr (jGet d "action") (jGet d "disposition")) = Action.allow := ha
    exact normalizeAction_allow _ ha2
  · exact Except.noConfusion hok

/-- Explicit permission evidence in a raw unit: a case-insensitive
allow/permit/accept keyword (which subsumes an explicit `ALLOW` token), the
Capture-ATP clean disposition `disposition=clean`, or — for structured input —
a permission keyword inside the object's `action`/`disposition` field. -/
def permissionEvidence (env : JsEnv) (line : String) : Bool :=
  keywordEvidence line ||
  containsL line.data ("disposition=clean").data ||
  (match env.jsonParse (jsTrim line) with
   | some obj =>
     strIncludes (jsLower (jToString (jOr (jGet obj "action") (jGet obj "disposition")))) "allow" ||
     strIncludes (jsLower (jToString (jOr (jGet obj "action") (jGet obj "disposition")))) "permit" ||
     strIncludes (jsLower (jToString (jOr (jGet obj "action") (jGet obj "disposition")))) "accept"
   | none => false)

theorem permissionEvidence_kw (env : JsEnv) (line : String)
    (h : keywordEvidence line = true) : permissionEvidence env line = true := by
  unfold permissionEvidence
  rw [h]
  simp

theorem permissionEvidence_disp (env : JsEnv) (line : String)
    (h : containsL line.data ("disposition=clean").data = true) :
    permissionEvidence env line = true := by
  unfold permissionEvidence
  rw [h]
  simp

theorem permissionEvidence_json (env : JsEnv) (line : String) (obj : J)
    (hj : env.jsonParse (jsTrim line) = some obj)
    (h : (strIncludes (jsLower (jToString (jOr (jGet obj "action") (jGet obj "disposition")))) "allow" ||
          strIncludes (jsLower (jToString (jOr (jGet obj "action") (jGet obj "disposition")))) "permit" ||
          strIncludes (jsLower (jToString (jOr (jGet obj "action") (jGet obj "disposition")))) "accept")
        = true) :
    permissionEvidence env line = true := by
  unfold permissionEvidence
  rw [hj]
  dsimp only
  rw [h]
  simp

/-- C1 (amended): whenever `parseLogLine` emits an event whose action is
`allow`, the consumed unit carries explicit permission evidence: a
case-insensitive allow/permit/accept keyword, the Capture-ATP clean
disposition `disposition=clean`, or a permission keyword in a structured
object's `action`/`disposition` field; with no such indicator the emitted
action is never `allow`. -/
theorem c1_allow_requires_permission (env : JsEnv) (ver : SonicOSVersion) (line : String)
    (e : LogEntry) (h : EnhancedSonicWallLogParser.parseLogLine env ver line = some e)
    (ha : e.action = Action.allow) :
    permissionEvidence env line = true := by
  have hlift : keywordEvidence (jsTrim line) = true ∨
      containsL (jsTrim line).data ("disposition=clean").data = true →
      permissionEvidence env line = true := by
    rintro (hk | hd)
    · exact permissionEvidence_kw env line (keywordEvidence_trim line hk)
    · exact permissionEvidence_disp env line
        (containsL_mono (jsTrim line).data line.data ("disposition=clean").data
          (jsTrim_sub line) hd)
  have hsys : (match ver with
      | SonicOSVersion.v8 => EnhancedSonicWallLogParser.parseSonicOS8Log env (jsTrim line)
      | SonicOSVersion.v7 => EnhancedSonicWallLogParser.parseSonicOS7Log env (jsTrim line)).action
        = Action.allow → permissionEvidence env line = true := by
    intro hact
    cases ver with
    | v7 => exact hlift (Or.inl (parse7_allow env (jsTrim line) hact))
    | v8 => exact hlift (parse8_allow env (jsTrim line) hact)
  unfold EnhancedSonicWallLogParser.parseLogLine at h
  by_cases hb : jsTrim line = ""
  · rw [if_pos hb] at h
    exact Option.noConfusion h
  · rw [if_neg hb] at h
    dsimp only at h
    cases hdat : (jsTrim line).data with
    | nil =>
      rw [hdat] at h
      injection h with h
      subst h
      exact hsys ha
    | cons c restl =>
      rw [hdat] at h
      dsimp only at h
      by_cases hc : c = Char.ofNat 123
      · rw [if_pos hc] at h
        cases hj : env.jsonParse (jsTrim line) with
        | none =>
          rw [hj] at h
          injection h with h
          subst h
          exact hsys ha
        | some obj =>
          rw [hj] at h
          dsimp only at h
          cases hok : EnhancedSonicWallLogParser.parseStructuredLog env obj with
          | ok e1 =>
            rw [hok] at h
            injection h with h
            subst h
            exact permissionEvidence_json env line obj hj
              (structured_allow env obj _ hok ha)
          | error u =>
            rw [hok] at h
            injection h with h
            subst h
            exact hsys ha
      · rw [if_neg hc] at h
        injection h with h
        subst h
        exact hsys ha

/-- A Capture-ATP unit whose disposition is `clean`. -/
def c1Line : String :=
  "2024-01-15T10:00:00 CAPTURE analysis_time=5 file_type=exe threat_name=" ++ qm ++ "T" ++ qm ++
    " src=a:0 dst=b:0 disposition=clean"

/-- C1 counterexample: the clean-disposition Capture-ATP unit normalizes to
`action = allow` although it contains no allow/permit/accept keyword and no
ALLOW token (case-insensitively). -/
theorem c1_counterexample :
    (optE (EnhancedSonicWallLogParser.parseLogLine demoEnv .v8 c1Line)).action = Action.allow ∧
    keywordEvidence c1Line = false := by decide

/-- C1 witness: the amended theorem applied at the clean-disposition unit. -/
theorem c1_witness : permissionEvidence demoEnv c1Line = true :=
  c1_allow_requires_permission demoEnv .v8 c1Line
    (optE (EnhancedSonicWallLogParser.parseLogLine demoEnv .v8 c1Line))
    (by decide) (by decide)

end SW
